import Mathlib

/-!
Shallow embedding of the rule-based validation and quality-classification
engine of the PII-detection / data-quality pipeline.

The definitions mirror `src/validation.py` (class `DataValidator`) and
`src/data_quality.py` (the analyzers and the severity section of
`generate_report`).  Cell values are modelled by `Pii.Value`
(pandas NaN, Python str, int and float, the latter as an exact rational);
a dataset is an ordered list of named columns.  `KeyError` raised by a
pandas column access on a missing column is modelled by
`Pii.SchemaError.missingField` in an `Except` monad.
-/

set_option maxHeartbeats 1000000

namespace Pii

/-- Whitespace characters removed by Python `str.strip()` (ASCII range). -/
def pyIsSpace (c : Char) : Bool :=
  c = ' ' || c = '\t' || c = '\n' || c = '\r' || c = '\x0b' || c = '\x0c'

/-- Model of Python `str.strip()`: drop leading and trailing whitespace. -/
def pyStrip (s : String) : String :=
  String.mk (((s.toList.dropWhile pyIsSpace).reverse.dropWhile pyIsSpace).reverse)

/-- Lower-case one character, as Python `str.lower()` acts on ASCII data. -/
def lowerChar (c : Char) : Char :=
  if 'A' ≤ c ∧ c ≤ 'Z' then Char.ofNat (c.toNat + 32) else c

/-- Model of Python `str.lower()` on ASCII data. -/
def pyLower (s : String) : String := String.mk (s.toList.map lowerChar)

/-- Numeric value of a list of decimal digit characters. -/
def digitsVal (cs : List Char) : Nat := cs.foldl (fun a c => a * 10 + (c.toNat - 48)) 0

/-- Split a character list at every occurrence of a separator
(model of Python `str.split(sep)` for a one-character separator). -/
def splitOnCharAux : List Char → Char → List Char → List (List Char)
  | [], _, acc => [acc.reverse]
  | c :: rest, sep, acc =>
      if c = sep then acc.reverse :: splitOnCharAux rest sep []
      else splitOnCharAux rest sep (c :: acc)

def splitOnChar (sep : Char) (cs : List Char) : List (List Char) := splitOnCharAux cs sep []

/-- A raw cell of the tabular dataset.  `na` models a pandas missing value
(NaN/None), `str` a Python string, `int` a Python int and `flt` a Python
float (kept as an exact rational; the claims never depend on binary
rounding). -/
inductive Value where
  | na : Value
  | str : String → Value
  | int : Int → Value
  | flt : Rat → Value
deriving DecidableEq, Repr

/-- Model of `pd.isna` on a cell. -/
def isna : Value → Bool
  | .na => true
  | _ => false

/-- Rendering of a Python float, as used inside issue f-strings.  For an
integral float Python prints a trailing `.0`; no claim depends on the
rendering of non-integral floats. -/
def fltStr (q : Rat) : String :=
  if q.den = 1 then toString q.num ++ ".0" else toString q

/-- Model of Python `str(value)` on a cell. -/
def pyStr : Value → String
  | .na => "nan"
  | .str s => s
  | .int n => toString n
  | .flt q => fltStr q

/-- Model of Python `int(s)` on a string: surrounding whitespace is
stripped, an optional sign is followed by a non-empty run of decimal
digits (digit-group underscores are not modelled). -/
def parseIntCore : List Char → Option Int
  | '+' :: rest =>
      if rest ≠ [] ∧ rest.all Char.isDigit then some (digitsVal rest) else none
  | '-' :: rest =>
      if rest ≠ [] ∧ rest.all Char.isDigit then some (-(digitsVal rest : Int)) else none
  | cs =>
      if cs ≠ [] ∧ cs.all Char.isDigit then some (digitsVal cs) else none

def parseInt? (s : String) : Option Int := parseIntCore (pyStrip s).toList

/-- Exponent part of a Python float literal: `e`/`E`, optional sign,
non-empty digit run. -/
def parseExp (m : Rat) : List Char → Option Rat
  | '+' :: rest =>
      if rest ≠ [] ∧ rest.all Char.isDigit then some (m * 10 ^ digitsVal rest) else none
  | '-' :: rest =>
      if rest ≠ [] ∧ rest.all Char.isDigit then some (m / 10 ^ digitsVal rest) else none
  | cs =>
      if cs ≠ [] ∧ cs.all Char.isDigit then some (m * 10 ^ digitsVal cs) else none

/-- Unsigned part of a Python float literal: digits, an optional point
with further digits, an optional exponent (the `inf`/`nan` words and
underscores are not modelled). -/
def parseUnsignedFloat (cs : List Char) : Option Rat :=
  let ip := cs.takeWhile Char.isDigit
  let rest := cs.dropWhile Char.isDigit
  match rest with
  | [] => if ip = [] then none else some (digitsVal ip)
  | '.' :: rest2 =>
      let fp := rest2.takeWhile Char.isDigit
      let rest3 := rest2.dropWhile Char.isDigit
      if ip = [] ∧ fp = [] then none
      else
        let mant : Rat := (digitsVal ip : Rat) + (digitsVal fp : Rat) / 10 ^ fp.length
        match rest3 with
        | [] => some mant
        | e :: rest4 => if e = 'e' ∨ e = 'E' then parseExp mant rest4 else none
  | e :: rest2 =>
      if (e = 'e' ∨ e = 'E') ∧ ip ≠ [] then parseExp (digitsVal ip) rest2 else none

/-- Model of Python `float(s)` on a string. -/
def parseFloat? (s : String) : Option Rat :=
  match (pyStrip s).toList with
  | '+' :: rest => parseUnsignedFloat rest
  | '-' :: rest => (parseUnsignedFloat rest).map (fun q => -q)
  | cs => parseUnsignedFloat cs

/-- Truncation toward zero, the behaviour of Python `int(float)`. -/
def ratTrunc (q : Rat) : Int := if 0 ≤ q then q.floor else -((-q).floor)

/-- Model of Python `int(value)` on a cell (raises, i.e. `none`, on a
non-integral string; `na` is checked before this is reached). -/
def toInt? : Value → Option Int
  | .na => none
  | .str s => parseInt? s
  | .int n => some n
  | .flt q => some (ratTrunc q)

/-- Model of Python `float(value)` on a cell. -/
def toFloat? : Value → Option Rat
  | .na => none
  | .str s => parseFloat? s
  | .int n => some (n : Rat)
  | .flt q => some q

/-! ### Date parsing: model of `datetime.strptime` for the three formats
`%Y-%m-%d`, `%Y/%m/%d`, `%m/%d/%Y`.  `strptime` turns `%Y` into a 1–4
digit group and `%m`, `%d` into 1–2 digit groups separated by the literal
separator, then range-checks the calendar date; because the separators are
non-digits, greedy matching with backtracking is equivalent to splitting
the string at the separator and bounding each digit group. -/

def isLeap (y : Nat) : Bool := y % 4 = 0 && (y % 100 != 0 || y % 400 = 0)

def daysInMonth (y m : Nat) : Nat :=
  if m = 2 then (if isLeap y then 29 else 28)
  else if m = 4 ∨ m = 6 ∨ m = 9 ∨ m = 11 then 30
  else 31

/-- A calendar-valid date inside `datetime`'s year range. -/
def validYMD (y m d : Nat) : Bool :=
  decide (1 ≤ y ∧ y ≤ 9999 ∧ 1 ≤ m ∧ m ≤ 12 ∧ 1 ≤ d ∧ d ≤ daysInMonth y m)

/-- A non-empty all-digit group of bounded width, as produced by the
regex `strptime` builds for `%Y` / `%m` / `%d`. -/
def digitGroup? (cs : List Char) (maxLen : Nat) : Option Nat :=
  if cs ≠ [] ∧ cs.length ≤ maxLen ∧ cs.all Char.isDigit then some (digitsVal cs) else none

/-- Parse three separator-delimited digit groups of widths `w1`, `w2`,
`w3`. -/
def strptime3 (sep : Char) (w1 w2 w3 : Nat) (s : String) : Option (Nat × Nat × Nat) :=
  match splitOnChar sep s.toList with
  | [a, b, c] =>
      match digitGroup? a w1, digitGroup? b w2, digitGroup? c w3 with
      | some x, some y, some z => some (x, y, z)
      | _, _, _ => none
  | _ => none

/-- `strptime(s, "%Y<sep>%m<sep>%d")` succeeds. -/
def parsesYMD (sep : Char) (s : String) : Bool :=
  match strptime3 sep 4 2 2 s with
  | some (y, m, d) => validYMD y m d
  | none => false

/-- `strptime(s, "%m/%d/%Y")` succeeds. -/
def parsesMDY (s : String) : Bool :=
  match strptime3 '/' 2 2 4 s with
  | some (m, d, y) => validYMD y m d
  | none => false

/-- The ordered format list of `validate_date`; the loop breaks at the
first success, so only the disjunction is observable. -/
def dateFormatsParse (s : String) : Bool :=
  parsesYMD '-' s || parsesYMD '/' s || parsesMDY s

/-! ### The per-field rules of `DataValidator` (`src/validation.py`) -/

def emptyIssue : String := "Empty (should be non-empty)"

/-- Character class of the name regex `^[a-zA-Z\s\-]+$`. -/
def nameAlphaOk (cs : List Char) : Bool :=
  !cs.isEmpty && cs.all (fun c => c.isAlpha || pyIsSpace c || c = '-')

/-- `validate_name` issues for one cell. -/
def nameIssues (v : Value) : List String :=
  if isna v ∨ pyStrip (pyStr v) = "" then [emptyIssue]
  else
    let name := pyStrip (pyStr v)
    (if name.length < 2 then ["'" ++ name ++ "' (too short, min 2 chars)"]
     else if name.length > 50 then ["'" ++ name ++ "' (too long, max 50 chars)"]
     else [])
    ++ (if nameAlphaOk name.toList then [] else ["'" ++ name ++ "' (should be alphabetic)"])

def localChar (c : Char) : Bool :=
  c.isAlpha || c.isDigit || c = '.' || c = '_' || c = '%' || c = '+' || c = '-'

def domainChar (c : Char) : Bool := c.isAlpha || c.isDigit || c = '.' || c = '-'

/-- Domain part of the email regex, `[a-zA-Z0-9.-]+\.[a-zA-Z]{2,}`:
since the TLD group admits no dot, backtracking succeeds exactly when the
part before the last dot is a non-empty run of domain characters and the
part after it is an all-alphabetic run of length at least two. -/
def domainTldMatch (cs : List Char) : Bool :=
  match (splitOnChar '.' cs).reverse with
  | tld :: front1 :: rest =>
      !(front1.isEmpty && rest.isEmpty) &&
      (front1 :: rest).all (fun p => p.all domainChar) &&
      tld.all Char.isAlpha && decide (2 ≤ tld.length)
  | _ => false

/-- The email regex `^[a-zA-Z0-9._%+-]+@[a-zA-Z0-9.-]+\.[a-zA-Z]{2,}$`:
neither side of the pattern admits `@`, so the string must contain exactly
one `@` splitting it into a non-empty local part and a matching domain. -/
def emailMatch (s : String) : Bool :=
  match splitOnChar '@' s.toList with
  | [l, r] => !l.isEmpty && l.all localChar && domainTldMatch r
  | _ => false

/-- `validate_email` issues for one cell. -/
def emailIssues (v : Value) : List String :=
  if isna v ∨ pyStrip (pyStr v) = "" then [emptyIssue]
  else
    let email := pyStrip (pyStr v)
    if emailMatch email then [] else ["'" ++ email ++ "' (invalid email format)"]

/-- `validate_phone` issues for one cell (`re.sub(r'\D', '', phone)`
keeps exactly the digits). -/
def phoneIssues (v : Value) : List String :=
  if isna v ∨ pyStrip (pyStr v) = "" then [emptyIssue]
  else
    let phone := pyStrip (pyStr v)
    let digits := phone.toList.filter Char.isDigit
    if digits.length ≠ 10 then
      ["'" ++ phone ++ "' (should have 10 digits, found " ++ toString digits.length ++ ")"]
    else []

/-- `validate_date` issues for one cell: the lower-cased sentinel test
precedes any format parsing. -/
def dateIssues (v : Value) : List String :=
  if isna v ∨ pyStrip (pyStr v) = "" then [emptyIssue]
  else
    let ds := pyStrip (pyStr v)
    if pyLower ds = "invalid_date" then ["'invalid_date' (invalid date value)"]
    else if dateFormatsParse ds then []
    else ["'" ++ ds ++ "' (unrecognized date format)"]

/-- `validate_address` issues for one cell. -/
def addressIssues (v : Value) : List String :=
  if isna v ∨ pyStrip (pyStr v) = "" then [emptyIssue]
  else
    let address := pyStrip (pyStr v)
    if address.length < 10 then ["'" ++ address ++ "' (too short, min 10 chars)"]
    else if address.length > 200 then ["'" ++ address ++ "' (too long, max 200 chars)"]
    else []

/-- `validate_income` issues for one cell: a value `float` cannot coerce
is itself the issue, never an exception. -/
def incomeIssues (v : Value) : List String :=
  if isna v then [emptyIssue]
  else
    match toFloat? v with
    | some q =>
        if q < 0 then [fltStr q ++ " (should be non-negative)"]
        else if q > 10000000 then [fltStr q ++ " (exceeds $10M limit)"]
        else []
    | none => ["'" ++ pyStr v ++ "' (should be numeric)"]

def validStatuses : List String := ["active", "inactive", "suspended"]

/-- `validate_account_status` issues for one cell: membership is tested
on the stripped, lower-cased value. -/
def statusIssues (v : Value) : List String :=
  if isna v ∨ pyStrip (pyStr v) = "" then
    ["Empty (should be one of: active, inactive, suspended)"]
  else if pyLower (pyStrip (pyStr v)) ∈ validStatuses then []
  else ["'" ++ pyStr v ++ "' (invalid value, should be: active, inactive, suspended)"]

/-- `validate_customer_id` issues for one cell, given the `ids_seen`
state accumulated at earlier record positions.  The positivity /
integrality block comes first, then the uniqueness block, in source
order. -/
def cidIssues (v : Value) (seen : List Value) : List String :=
  (if isna v then [emptyIssue]
   else
     match toInt? v with
     | some n => if n ≤ 0 then [pyStr v ++ " (should be positive)"] else []
     | none => [pyStr v ++ " (should be integer)"])
  ++ (if isna v then []
      else if v ∈ seen then [pyStr v ++ " (duplicate ID)"]
      else [])

/-- The update of `ids_seen`: every non-missing value is added, whether
or not it is well-formed. -/
def cidSeenStep (v : Value) (seen : List Value) : List Value :=
  if isna v then seen
  else if v ∈ seen then seen
  else v :: seen

/-! ### The validation engine (`DataValidator`) -/

/-- A recorded validation failure: `row` is the reported 1-based input
line number (`row_idx + 2` in the source, accounting for the header
line). -/
structure Failure where
  row : Nat
  column : String
  issues : List String
deriving DecidableEq, Repr

/-- The mutable accumulator of one `DataValidator` run: the append-only
failure list and the surviving pass set of record indices. -/
structure VState where
  failures : List Failure
  passedRows : Finset Nat
deriving DecidableEq

/-- `DataValidator.add_failure`: append one failure and drop the record
index from the pass set (a no-op if it was already dropped). -/
def addFailure (rowIdx : Nat) (column : String) (issues : List String) (st : VState) : VState :=
  { failures := st.failures ++ [{ row := rowIdx + 2, column := column, issues := issues }],
    passedRows := st.passedRows.erase rowIdx }

/-- The per-column validation loop shared by all rules except
`validate_customer_id`: enumerate the column, record a failure whenever
the rule reports at least one issue. -/
def validateColAux (column : String) (rule : Value → List String) :
    Nat → List Value → VState → VState
  | _, [], st => st
  | idx, v :: rest, st =>
      let issues := rule v
      validateColAux column rule (idx + 1) rest
        (if issues = [] then st else addFailure idx column issues st)

/-- The `validate_customer_id` loop, threading the `ids_seen` state. -/
def validateCidAux : Nat → List Value → List Value → VState → VState
  | _, [], _, st => st
  | idx, v :: rest, seen, st =>
      let issues := cidIssues v seen
      validateCidAux (idx + 1) rest (cidSeenStep v seen)
        (if issues = [] then st else addFailure idx "customer_id" issues st)

/-- The in-memory dataset: named columns over a fixed row count. -/
structure DataFrame where
  nrows : Nat
  cols : List (String × List Value)
deriving DecidableEq

/-- `df[c]`: the first column named `c`, if any. -/
def getCol? (df : DataFrame) (c : String) : Option (List Value) :=
  (df.cols.find? (fun p => p.1 == c)).map Prod.snd

/-- The structural error signalled when a required column is absent
(models the pandas `KeyError` naming the missing column, the
`SchemaError` of the specification). -/
inductive SchemaError where
  | missingField : String → SchemaError
deriving DecidableEq, Repr

/-- A pandas column access that is fatal when the column is missing. -/
def reqCol (df : DataFrame) (c : String) : Except SchemaError (List Value) :=
  match getCol? df c with
  | none => Except.error (SchemaError.missingField c)
  | some vs => Except.ok vs

/-- One step of `run_all_validations` for a simple per-column rule. -/
def colStep (df : DataFrame) (column : String) (rule : Value → List String) (st : VState) :
    Except SchemaError VState := do
  let vs ← reqCol df column
  Except.ok (validateColAux column rule 0 vs st)

/-- The `validate_customer_id` step of `run_all_validations`. -/
def cidStep (df : DataFrame) (st : VState) : Except SchemaError VState := do
  let vs ← reqCol df "customer_id"
  Except.ok (validateCidAux 0 vs [] st)

/-- `DataValidator.run_all_validations`, starting from the initial state
built by `__init__` (`failures = []`, `passed_rows = set(range(len(df)))`)
and executing the ten rule passes in source order. -/
def runAllValidations (df : DataFrame) : Except SchemaError VState := do
  let st0 : VState := { failures := [], passedRows := Finset.range df.nrows }
  let st1 ← cidStep df st0
  let st2 ← colStep df "first_name" nameIssues st1
  let st3 ← colStep df "last_name" nameIssues st2
  let st4 ← colStep df "email" emailIssues st3
  let st5 ← colStep df "phone" phoneIssues st4
  let st6 ← colStep df "date_of_birth" dateIssues st5
  let st7 ← colStep df "address" addressIssues st6
  let st8 ← colStep df "income" incomeIssues st7
  let st9 ← colStep df "account_status" statusIssues st8
  colStep df "created_date" dateIssues st9

/-! ### The quality analyzers (`src/data_quality.py`) -/

/-- `analyze_completeness` for one column: non-null count minus
empty-string count gives the valid count; `missing` is the complement
against the row count. -/
def missingOf (totalRows : Nat) (vs : List Value) : Nat :=
  let nonNull := vs.countP (fun v => !(isna v))
  let empties := vs.countP (fun v => v == Value.str "")
  totalRows - (nonNull - empties)

/-- The per-column missing counts, in dataset column order (the
percentage part of `analyze_completeness` is rendering only). -/
def completenessList (df : DataFrame) : List (String × Nat) :=
  df.cols.map (fun p => (p.1, missingOf df.nrows p.2))

/-- `df['customer_id'].nunique()`: distinct non-null values. -/
def uniqueCount (ids : List Value) : Nat :=
  ((ids.filter (fun v => !(isna v))).dedup).length

/-- `analyze_uniqueness`: `duplicates = total - unique` (a Python int). -/
def dupCount (ids : List Value) : Int :=
  (ids.length : Int) - (uniqueCount ids : Int)

/-- The common shape of the row-wise issue collectors of
`data_quality.py`: enumerate a column and emit one message per row whose
value satisfies the predicate. -/
def rowScan (P : Value → Bool) (msg : Nat → Value → String) :
    Nat → List Value → List String
  | _, [] => []
  | idx, v :: rest => (if P v then [msg idx v] else []) ++ rowScan P msg (idx + 1) rest

/-- `analyze_invalid_values`, sentinel check: a present value whose
stripped string is exactly `invalid_date` (case-sensitive here). -/
def sentinelP (v : Value) : Bool :=
  !(isna v) && (pyStrip (pyStr v) == "invalid_date")

def sentinelMsg (column : String) (idx : Nat) (_v : Value) : String :=
  "Row " ++ toString (idx + 2) ++ ": " ++ column ++ " = 'invalid_date'"

/-- `analyze_invalid_values`, negative-income check (`float` failures are
swallowed by the bare `except`). -/
def negIncomeP (v : Value) : Bool :=
  !(isna v) &&
    (match toFloat? v with
     | some q => decide (q < 0)
     | none => false)

def negIncomeMsg (idx : Nat) (v : Value) : String :=
  "Row " ++ toString (idx + 2) ++ ": income = " ++
    (match toFloat? v with
     | some q => fltStr q
     | none => "") ++ " (negative)"

/-- Python `str(value).split('-')[0]`. -/
def firstDashField (s : String) : String :=
  String.mk ((splitOnChar '-' s.toList).headD [])

/-- `analyze_invalid_values`, unrealistic-age check: only attempted when
the raw string contains a dash; `int` failures are swallowed. -/
def unrealAgeP (cy : Int) (v : Value) : Bool :=
  !(isna v) && (pyStrip (pyStr v) != "") && (pyStrip (pyStr v) != "invalid_date") &&
  (pyStr v).toList.contains '-' &&
    (match parseInt? (firstDashField (pyStr v)) with
     | some y => decide (cy - y > 150)
     | none => false)

def unrealAgeMsg (cy : Int) (idx : Nat) (v : Value) : String :=
  "Row " ++ toString (idx + 2) ++ ": age = " ++
    (match parseInt? (firstDashField (pyStr v)) with
     | some y => toString (cy - y)
     | none => "") ++ " (unrealistic)"

/-- `analyze_invalid_values(df)` given the three columns it reads and the
run-time current year `cy` (`datetime.now().year`). -/
def invalidValues (dob created income : List Value) (cy : Int) : List String :=
  rowScan sentinelP (sentinelMsg "date_of_birth") 0 dob
    ++ rowScan sentinelP (sentinelMsg "created_date") 0 created
    ++ rowScan negIncomeP negIncomeMsg 0 income
    ++ rowScan (unrealAgeP cy) (unrealAgeMsg cy) 0 dob

/-- A present, non-blank account-status cell. -/
def catPresent (v : Value) : Bool := !(isna v) && (pyStrip (pyStr v) != "")

/-- `analyze_categorical_validity`: a present value is an issue when its
stripped string (case-sensitively) is not a valid status; an absent or
blank value is always an issue. -/
def catP (v : Value) : Bool :=
  if catPresent v then decide (pyStrip (pyStr v) ∉ validStatuses) else true

def catMsg (idx : Nat) (v : Value) : String :=
  if catPresent v then
    "Row " ++ toString (idx + 2) ++ ": '" ++ pyStr v ++ "' (invalid value)"
  else "Row " ++ toString (idx + 2) ++ ": Empty (missing value)"

def catIssues (vs : List Value) : List String := rowScan catP catMsg 0 vs

/-- A cell that `analyze_format_issues` inspects: non-null and not the
(unwrapped) empty string. -/
def fmtPresent (v : Value) : Bool := !(isna v) && !(v == Value.str "")

/-- `analyze_format_issues`, date-of-birth branch. -/
def dobFmtP (v : Value) : Bool :=
  fmtPresent v &&
    ((pyStrip (pyStr v) == "invalid_date") || (pyStrip (pyStr v)).toList.contains '/')

def dobFmtMsg (idx : Nat) (v : Value) : String :=
  if pyStrip (pyStr v) == "invalid_date" then "Row " ++ toString (idx + 2) ++ ": invalid_date"
  else "Row " ++ toString (idx + 2) ++ ": " ++ pyStrip (pyStr v) ++ " (YYYY/MM/DD format)"

def firstIsDigit (s : String) : Bool :=
  match s.toList with
  | [] => false
  | c :: _ => c.isDigit

/-- `analyze_format_issues`, created-date branch (additionally requires a
leading digit before the slash test fires). -/
def createdFmtP (v : Value) : Bool :=
  fmtPresent v &&
    ((pyStrip (pyStr v) == "invalid_date") ||
      ((pyStrip (pyStr v)).toList.contains '/' && firstIsDigit (pyStrip (pyStr v))))

def createdFmtMsg (idx : Nat) (v : Value) : String :=
  if pyStrip (pyStr v) == "invalid_date" then "Row " ++ toString (idx + 2) ++ ": invalid_date"
  else "Row " ++ toString (idx + 2) ++ ": " ++ pyStrip (pyStr v) ++ " (MM/DD/YYYY format)"

def dobFmtIssues (vs : List Value) : List String := rowScan dobFmtP dobFmtMsg 0 vs

def createdFmtIssues (vs : List Value) : List String := rowScan createdFmtP createdFmtMsg 0 vs

/-! ### The severity section of `generate_report` -/

/-- The columns whose missing values are explicitly classed medium. -/
def mediumMissingCols : List String := ["first_name", "last_name", "email", "address"]

/-- One step of the missing-value loop of the severity section: the
accumulator carries `(critical, medium)`. -/
def missingStep (acc : Int × Int) (p : String × Nat) : Int × Int :=
  if p.2 > 0 then
    if p.1 ∈ mediumMissingCols then (acc.1, acc.2 + (p.2 : Int))
    else if p.1 = "customer_id" then (acc.1 + (p.2 : Int), acc.2)
    else (acc.1, acc.2 + (p.2 : Int))
  else acc

/-- The severity tally of `generate_report`, as a function of the
analyzer outputs it consumes (its other sections are rendering only). -/
def severityOf (completeness : List (String × Nat)) (dobFmt createdFmt : List String)
    (dup : Int) (invalids cats : List String) : Int × Int × Int :=
  let high0 : Int :=
    if dobFmt ≠ [] ∨ createdFmt ≠ [] then (dobFmt.length : Int) + (createdFmt.length : Int)
    else 0
  let high1 : Int := high0 + (if invalids ≠ [] then (invalids.length : Int) else 0)
  let medium0 : Int := if cats ≠ [] then (cats.length : Int) else 0
  let critical0 : Int := if dup > 0 then dup else 0
  let cm := completeness.foldl missingStep (critical0, medium0)
  (cm.1, high1, cm.2)

/-- The severity tally produced by the `data_quality` pipeline for a
dataset at current year `cy`: the analyzers run over the columns they
address (`analyze_format_issues` also touches the phone column, whose
summary is rendering only), then `generate_report` folds their outputs.
Triple order: (critical, high, medium). -/
def qualitySeverity (df : DataFrame) (cy : Int) : Except SchemaError (Int × Int × Int) := do
  let _phone ← reqCol df "phone"
  let dob ← reqCol df "date_of_birth"
  let created ← reqCol df "created_date"
  let ids ← reqCol df "customer_id"
  let income ← reqCol df "income"
  let status ← reqCol df "account_status"
  Except.ok (severityOf (completenessList df) (dobFmtIssues dob) (createdFmtIssues created)
    (dupCount ids) (invalidValues dob created income cy) (catIssues status))

/-- Replace the contents of column `c`. -/
def setCol (df : DataFrame) (c : String) (vs : List Value) : DataFrame :=
  { df with cols := df.cols.map (fun p => if p.1 = c then (c, vs) else p) }

/-! ## Structural lemmas about the validation engine -/

/-- The failures one per-column pass appends, written as a pure list. -/
def failuresFrom (column : String) (rule : Value → List String) :
    Nat → List Value → List Failure
  | _, [] => []
  | idx, v :: rest =>
      (if rule v = [] then []
       else [{ row := idx + 2, column := column, issues := rule v }])
      ++ failuresFrom column rule (idx + 1) rest

/-- The failures the customer-id pass appends, written as a pure list. -/
def cidFailures : Nat → List Value → List Value → List Failure
  | _, [], _ => []
  | idx, v :: rest, seen =>
      (if cidIssues v seen = [] then []
       else [{ row := idx + 2, column := "customer_id", issues := cidIssues v seen }])
      ++ cidFailures (idx + 1) rest (cidSeenStep v seen)

/-- The record indices referenced by a failure list. -/
def rowIdxSet (fs : List Failure) : Finset Nat := (fs.map (fun f => f.row - 2)).toFinset

lemma rowIdxSet_nil : rowIdxSet [] = ∅ := rfl

lemma rowIdxSet_cons (f : Failure) (fs : List Failure) :
    rowIdxSet (f :: fs) = insert (f.row - 2) (rowIdxSet fs) := by
  simp [rowIdxSet]

lemma rowIdxSet_append (a b : List Failure) :
    rowIdxSet (a ++ b) = rowIdxSet a ∪ rowIdxSet b := by
  simp [rowIdxSet]

lemma erase_sdiff_eq (s : Finset ℕ) (a : ℕ) (t : Finset ℕ) :
    (s.erase a) \ t = s \ insert a t := by
  ext i
  simp only [Finset.mem_sdiff, Finset.mem_erase, Finset.mem_insert]
  tauto

/-- A per-column pass only appends its failures and shrinks the pass set
by the indices it references. -/
lemma validateColAux_eq (column : String) (rule : Value → List String) :
    ∀ (vs : List Value) (idx : Nat) (st : VState),
      validateColAux column rule idx vs st =
        { failures := st.failures ++ failuresFrom column rule idx vs,
          passedRows := st.passedRows \ rowIdxSet (failuresFrom column rule idx vs) }
  | [], idx, st => by
      simp [validateColAux, failuresFrom, rowIdxSet]
  | v :: rest, idx, st => by
      simp only [validateColAux, failuresFrom]
      by_cases h : rule v = []
      · simp only [h, if_pos, List.nil_append]
        rw [validateColAux_eq column rule rest (idx + 1) st]
      · simp only [h, if_neg, not_false_iff]
        rw [validateColAux_eq column rule rest (idx + 1) (addFailure idx column (rule v) st)]
        simp [addFailure, List.append_assoc, rowIdxSet_cons, Nat.add_sub_cancel,
          erase_sdiff_eq]

/-- The customer-id pass only appends its failures and shrinks the pass
set by the indices it references. -/
lemma validateCidAux_eq :
    ∀ (vs : List Value) (idx : Nat) (seen : List Value) (st : VState),
      validateCidAux idx vs seen st =
        { failures := st.failures ++ cidFailures idx vs seen,
          passedRows := st.passedRows \ rowIdxSet (cidFailures idx vs seen) }
  | [], idx, seen, st => by
      simp [validateCidAux, cidFailures, rowIdxSet]
  | v :: rest, idx, seen, st => by
      simp only [validateCidAux, cidFailures]
      by_cases h : cidIssues v seen = []
      · simp only [h, if_pos, List.nil_append]
        rw [validateCidAux_eq rest (idx + 1) (cidSeenStep v seen) st]
      · simp only [h, if_neg, not_false_iff]
        rw [validateCidAux_eq rest (idx + 1) (cidSeenStep v seen)
          (addFailure idx "customer_id" (cidIssues v seen) st)]
        simp [addFailure, List.append_assoc, rowIdxSet_cons, Nat.add_sub_cancel,
          erase_sdiff_eq]

lemma sdiff_sdiff_union (s t u : Finset ℕ) : (s \ t) \ u = s \ (t ∪ u) := by
  ext i
  simp only [Finset.mem_sdiff, Finset.mem_union]
  tauto

/-- All failures of one full `run_all_validations` pass, as a function of
the ten column contents, in source execution order. -/
def allFailures (cid fn ln em ph dob addr inc stat cd : List Value) : List Failure :=
  cidFailures 0 cid []
    ++ failuresFrom "first_name" nameIssues 0 fn
    ++ failuresFrom "last_name" nameIssues 0 ln
    ++ failuresFrom "email" emailIssues 0 em
    ++ failuresFrom "phone" phoneIssues 0 ph
    ++ failuresFrom "date_of_birth" dateIssues 0 dob
    ++ failuresFrom "address" addressIssues 0 addr
    ++ failuresFrom "income" incomeIssues 0 inc
    ++ failuresFrom "account_status" statusIssues 0 stat
    ++ failuresFrom "created_date" dateIssues 0 cd

/-- Master description of `run_all_validations` when all ten required
columns are present: the failure list is the concatenation of the ten
passes and the pass set is everything not referenced by a failure. -/
lemma runAll_eq (df : DataFrame) {cid fn ln em ph dob addr inc stat cd : List Value}
    (h1 : getCol? df "customer_id" = some cid)
    (h2 : getCol? df "first_name" = some fn)
    (h3 : getCol? df "last_name" = some ln)
    (h4 : getCol? df "email" = some em)
    (h5 : getCol? df "phone" = some ph)
    (h6 : getCol? df "date_of_birth" = some dob)
    (h7 : getCol? df "address" = some addr)
    (h8 : getCol? df "income" = some inc)
    (h9 : getCol? df "account_status" = some stat)
    (h10 : getCol? df "created_date" = some cd) :
    runAllValidations df = Except.ok
      { failures := allFailures cid fn ln em ph dob addr inc stat cd,
        passedRows :=
          Finset.range df.nrows \ rowIdxSet (allFailures cid fn ln em ph dob addr inc stat cd) } := by
  simp only [runAllValidations, cidStep, colStep, reqCol, h1, h2, h3, h4, h5, h6, h7, h8,
    h9, h10, bind, Except.bind]
  rw [validateCidAux_eq]
  rw [validateColAux_eq, validateColAux_eq, validateColAux_eq, validateColAux_eq,
    validateColAux_eq, validateColAux_eq, validateColAux_eq, validateColAux_eq,
    validateColAux_eq]
  simp [allFailures, rowIdxSet_append, sdiff_sdiff_union, List.append_assoc,
    Finset.union_assoc]

/-- Every failure of a per-column pass carries that column, a non-empty
issue list and a row reference inside the scanned range. -/
lemma failuresFrom_spec (column : String) (rule : Value → List String) :
    ∀ (vs : List Value) (idx : Nat) (f : Failure), f ∈ failuresFrom column rule idx vs →
      f.column = column ∧ f.issues ≠ [] ∧ idx + 2 ≤ f.row ∧ f.row < idx + vs.length + 2
  | [], _, _, h => by simp [failuresFrom] at h
  | v :: rest, idx, f, h => by
      simp only [failuresFrom, List.mem_append] at h
      rcases h with h | h
      · by_cases hr : rule v = []
        · simp [hr] at h
        · simp only [hr, if_neg, not_false_iff, List.mem_singleton] at h
          subst h
          exact ⟨rfl, hr, Nat.le_refl _,
            by show idx + 2 < idx + (rest.length + 1) + 2; omega⟩
      · have hs := failuresFrom_spec column rule rest (idx + 1) f h
        exact ⟨hs.1, hs.2.1, by omega,
          by show f.row < idx + (rest.length + 1) + 2; omega⟩

/-- Every failure of the customer-id pass carries the customer-id column,
a non-empty issue list and a row reference inside the scanned range. -/
lemma cidFailures_spec :
    ∀ (vs : List Value) (idx : Nat) (seen : List Value) (f : Failure),
      f ∈ cidFailures idx vs seen →
      f.column = "customer_id" ∧ f.issues ≠ [] ∧ idx + 2 ≤ f.row ∧ f.row < idx + vs.length + 2
  | [], _, _, _, h => by simp [cidFailures] at h
  | v :: rest, idx, seen, f, h => by
      simp only [cidFailures, List.mem_append] at h
      rcases h with h | h
      · by_cases hr : cidIssues v seen = []
        · simp [hr] at h
        · simp only [hr, if_neg, not_false_iff, List.mem_singleton] at h
          subst h
          exact ⟨rfl, hr, Nat.le_refl _,
            by show idx + 2 < idx + (rest.length + 1) + 2; omega⟩
      · have hs := cidFailures_spec rest (idx + 1) (cidSeenStep v seen) f h
        exact ⟨hs.1, hs.2.1, by omega,
          by show f.row < idx + (rest.length + 1) + 2; omega⟩

/-- Rows are strictly increasing inside one per-column pass. -/
lemma failuresFrom_rows_sorted (column : String) (rule : Value → List String) :
    ∀ (vs : List Value) (idx : Nat),
      (failuresFrom column rule idx vs).Pairwise (fun a b => a.row < b.row)
  | [], _ => by simp [failuresFrom]
  | v :: rest, idx => by
      simp only [failuresFrom]
      rw [List.pairwise_append]
      refine ⟨?_, failuresFrom_rows_sorted column rule rest (idx + 1), ?_⟩
      · by_cases hr : rule v = [] <;> simp [hr]
      · intro a ha b hb
        by_cases hr : rule v = []
        · simp [hr] at ha
        · simp only [hr, if_neg, not_false_iff, List.mem_singleton] at ha
          subst ha
          have hb2 := failuresFrom_spec column rule rest (idx + 1) b hb
          show idx + 2 < b.row
          omega

/-- Rows are strictly increasing inside the customer-id pass. -/
lemma cidFailures_rows_sorted :
    ∀ (vs : List Value) (idx : Nat) (seen : List Value),
      (cidFailures idx vs seen).Pairwise (fun a b => a.row < b.row)
  | [], _, _ => by simp [cidFailures]
  | v :: rest, idx, seen => by
      simp only [cidFailures]
      rw [List.pairwise_append]
      refine ⟨?_, cidFailures_rows_sorted rest (idx + 1) (cidSeenStep v seen), ?_⟩
      · by_cases hr : cidIssues v seen = [] <;> simp [hr]
      · intro a ha b hb
        by_cases hr : cidIssues v seen = []
        · simp [hr] at ha
        · simp only [hr, if_neg, not_false_iff, List.mem_singleton] at ha
          subst ha
          have hb2 := cidFailures_spec rest (idx + 1) (cidSeenStep v seen) b hb
          show idx + 2 < b.row
          omega

/-- A successful pass pins every column's length to the frame's row
count (the pandas invariant). -/
lemma getCol?_length {df : DataFrame} {c : String} {vs : List Value}
    (hlen : ∀ p ∈ df.cols, p.2.length = df.nrows)
    (h : getCol? df c = some vs) : vs.length = df.nrows := by
  unfold getCol? at h
  cases hf : df.cols.find? (fun p => p.1 == c) with
  | none => rw [hf] at h; simp at h
  | some p =>
      rw [hf] at h
      have hm : p.2 = vs := by simpa using h
      rw [← hm]
      exact hlen p (List.mem_of_find?_eq_some hf)

/-- Shape of a successful `run_all_validations`: all ten required columns
are present and the result is the master decomposition. -/
lemma runAll_ok_shape (df : DataFrame) (st : VState)
    (hok : runAllValidations df = Except.ok st) :
    ∃ cid fn ln em ph dob addr inc stat cd,
      getCol? df "customer_id" = some cid ∧
      getCol? df "first_name" = some fn ∧
      getCol? df "last_name" = some ln ∧
      getCol? df "email" = some em ∧
      getCol? df "phone" = some ph ∧
      getCol? df "date_of_birth" = some dob ∧
      getCol? df "address" = some addr ∧
      getCol? df "income" = some inc ∧
      getCol? df "account_status" = some stat ∧
      getCol? df "created_date" = some cd ∧
      st = { failures := allFailures cid fn ln em ph dob addr inc stat cd,
             passedRows := Finset.range df.nrows \
               rowIdxSet (allFailures cid fn ln em ph dob addr inc stat cd) } := by
  cases h1 : getCol? df "customer_id" with
  | none => simp [runAllValidations, cidStep, reqCol, h1, bind, Except.bind] at hok
  | some cid =>
  cases h2 : getCol? df "first_name" with
  | none =>
      simp [runAllValidations, cidStep, colStep, reqCol, h1, h2, bind, Except.bind] at hok
  | some fn =>
  cases h3 : getCol? df "last_name" with
  | none =>
      simp [runAllValidations, cidStep, colStep, reqCol, h1, h2, h3, bind, Except.bind] at hok
  | some ln =>
  cases h4 : getCol? df "email" with
  | none =>
      simp [runAllValidations, cidStep, colStep, reqCol, h1, h2, h3, h4, bind,
        Except.bind] at hok
  | some em =>
  cases h5 : getCol? df "phone" with
  | none =>
      simp [runAllValidations, cidStep, colStep, reqCol, h1, h2, h3, h4, h5, bind,
        Except.bind] at hok
  | some ph =>
  cases h6 : getCol? df "date_of_birth" with
  | none =>
      simp [runAllValidations, cidStep, colStep, reqCol, h1, h2, h3, h4, h5, h6, bind,
        Except.bind] at hok
  | some dob =>
  cases h7 : getCol? df "address" with
  | none =>
      simp [runAllValidations, cidStep, colStep, reqCol, h1, h2, h3, h4, h5, h6, h7, bind,
        Except.bind] at hok
  | some addr =>
  cases h8 : getCol? df "income" with
  | none =>
      simp [runAllValidations, cidStep, colStep, reqCol, h1, h2, h3, h4, h5, h6, h7, h8,
        bind, Except.bind] at hok
  | some inc =>
  cases h9 : getCol? df "account_status" with
  | none =>
      simp [runAllValidations, cidStep, colStep, reqCol, h1, h2, h3, h4, h5, h6, h7, h8,
        h9, bind, Except.bind] at hok
  | some stat =>
  cases h10 : getCol? df "created_date" with
  | none =>
      simp [runAllValidations, cidStep, colStep, reqCol, h1, h2, h3, h4, h5, h6, h7, h8,
        h9, h10, bind, Except.bind] at hok
  | some cd =>
      rw [runAll_eq df h1 h2 h3 h4 h5 h6 h7 h8 h9 h10] at hok
      simp only [Except.ok.injEq] at hok
      exact ⟨cid, fn, ln, em, ph, dob, addr, inc, stat, cd, rfl, rfl, rfl, rfl, rfl, rfl,
        rfl, rfl, rfl, rfl, hok.symm⟩

/-- Row bounds over the whole failure list, given the column lengths. -/
lemma allFailures_bounds {cid fn ln em ph dob addr inc stat cd : List Value} {n : Nat}
    (e1 : cid.length = n) (e2 : fn.length = n) (e3 : ln.length = n) (e4 : em.length = n)
    (e5 : ph.length = n) (e6 : dob.length = n) (e7 : addr.length = n) (e8 : inc.length = n)
    (e9 : stat.length = n) (e10 : cd.length = n) :
    ∀ f ∈ allFailures cid fn ln em ph dob addr inc stat cd, 2 ≤ f.row ∧ f.row < n + 2 := by
  intro f hf
  simp only [allFailures, List.mem_append] at hf
  rcases hf with ((((((((hf | hf) | hf) | hf) | hf) | hf) | hf) | hf) | hf) | hf
  · have hs := cidFailures_spec cid 0 [] f hf
    omega
  · have hs := failuresFrom_spec "first_name" nameIssues fn 0 f hf
    omega
  · have hs := failuresFrom_spec "last_name" nameIssues ln 0 f hf
    omega
  · have hs := failuresFrom_spec "email" emailIssues em 0 f hf
    omega
  · have hs := failuresFrom_spec "phone" phoneIssues ph 0 f hf
    omega
  · have hs := failuresFrom_spec "date_of_birth" dateIssues dob 0 f hf
    omega
  · have hs := failuresFrom_spec "address" addressIssues addr 0 f hf
    omega
  · have hs := failuresFrom_spec "income" incomeIssues inc 0 f hf
    omega
  · have hs := failuresFrom_spec "account_status" statusIssues stat 0 f hf
    omega
  · have hs := failuresFrom_spec "created_date" dateIssues cd 0 f hf
    omega

lemma rowIdxSet_subset_range {cid fn ln em ph dob addr inc stat cd : List Value} {n : Nat}
    (hb : ∀ f ∈ allFailures cid fn ln em ph dob addr inc stat cd,
      2 ≤ f.row ∧ f.row < n + 2) :
    rowIdxSet (allFailures cid fn ln em ph dob addr inc stat cd) ⊆ Finset.range n := by
  intro i hi
  simp only [rowIdxSet, List.mem_toFinset, List.mem_map] at hi
  obtain ⟨f, hfm, he⟩ := hi
  have hbf := hb f hfm
  simp only [Finset.mem_range]
  omega

/-- Claim C1: after `run_all_validations` on a dataset containing all
required columns, a record position is in the pass set iff no failure
references it, and pass-set size plus the number of distinct failing
record positions equals the record count. -/
theorem passSet_iff_and_partition (df : DataFrame) (st : VState)
    (hlen : ∀ p ∈ df.cols, p.2.length = df.nrows)
    (hok : runAllValidations df = Except.ok st) :
    (∀ i, i < df.nrows → (i ∈ st.passedRows ↔ ¬ ∃ f ∈ st.failures, f.row = i + 2))
    ∧ st.passedRows.card + ((st.failures.map (fun f => f.row)).toFinset).card
        = df.nrows := by
  obtain ⟨cid, fn, ln, em, ph, dob, addr, inc, stat, cd, h1, h2, h3, h4, h5, h6, h7, h8,
    h9, h10, hst⟩ := runAll_ok_shape df st hok
  subst hst
  have hb := allFailures_bounds (getCol?_length hlen h1) (getCol?_length hlen h2)
    (getCol?_length hlen h3) (getCol?_length hlen h4) (getCol?_length hlen h5)
    (getCol?_length hlen h6) (getCol?_length hlen h7) (getCol?_length hlen h8)
    (getCol?_length hlen h9) (getCol?_length hlen h10)
  constructor
  · intro i hi
    simp only [Finset.mem_sdiff, Finset.mem_range, rowIdxSet, List.mem_toFinset,
      List.mem_map]
    constructor
    · rintro ⟨-, hno⟩ ⟨f, hfm, hrow⟩
      exact hno ⟨f, hfm, by omega⟩
    · intro hno
      refine ⟨hi, ?_⟩
      rintro ⟨f, hfm, hrow⟩
      have hbf := hb f hfm
      exact hno ⟨f, hfm, by omega⟩
  · have hsub := rowIdxSet_subset_range hb
    have hcard := Finset.card_sdiff hsub
    have hle := Finset.card_le_card hsub
    have himg : (rowIdxSet (allFailures cid fn ln em ph dob addr inc stat cd)).card
        = (((allFailures cid fn ln em ph dob addr inc stat cd).map
            (fun f => f.row)).toFinset).card := by
      have hset : rowIdxSet (allFailures cid fn ln em ph dob addr inc stat cd)
          = (((allFailures cid fn ln em ph dob addr inc stat cd).map
              (fun f => f.row)).toFinset).image (fun r => r - 2) := by
        ext r
        simp only [rowIdxSet, List.mem_toFinset, List.mem_map, Finset.mem_image]
        constructor
        · rintro ⟨f2, hf2, rfl⟩
          exact ⟨f2.row, ⟨f2, hf2, rfl⟩, rfl⟩
        · rintro ⟨rr, ⟨f2, hf2, rfl⟩, rfl⟩
          exact ⟨f2, hf2, rfl⟩
      rw [hset]
      apply Finset.card_image_of_injOn
      intro a ha b hbm he
      simp only [Finset.coe_insert, List.coe_toFinset, List.mem_map, Set.mem_setOf_eq] at ha hbm
      obtain ⟨f, hfm, rfl⟩ := ha
      obtain ⟨g, hgm, rfl⟩ := hbm
      have hbf := hb f hfm
      have hbg := hb g hgm
      have he2 : f.row - 2 = g.row - 2 := he
      have : f.row = g.row := by omega
      rw [this]
    dsimp only
    rw [Finset.card_range] at hcard hle
    omega

/-- A concrete two-row dataset: row 0 is fully valid, row 1 violates
several rules. -/
def dfTwo : DataFrame :=
  { nrows := 2,
    cols := [("customer_id", [Value.int 1, Value.na]),
             ("first_name", [Value.str "John", Value.str "A"]),
             ("last_name", [Value.str "Doe", Value.str "Li"]),
             ("email", [Value.str "a@b.co", Value.str "bad"]),
             ("phone", [Value.str "5551234567", Value.str "123"]),
             ("date_of_birth", [Value.str "1990-01-15", Value.str "invalid_date"]),
             ("address", [Value.str "123 Main Street", Value.str "short"]),
             ("income", [Value.int 500, Value.int (-5)]),
             ("account_status", [Value.str "active", Value.str "Frozen"]),
             ("created_date", [Value.str "2020-01-01", Value.str "01/15/2020"])] }

instance {ε α : Type} [DecidableEq ε] [DecidableEq α] : DecidableEq (Except ε α) :=
  fun a b =>
  match a, b with
  | .ok x, .ok y =>
      if h : x = y then isTrue (by rw [h]) else isFalse (by simp [h])
  | .ok _, .error _ => isFalse (by simp)
  | .error _, .ok _ => isFalse (by simp)
  | .error x, .error y =>
      if h : x = y then isTrue (by rw [h]) else isFalse (by simp [h])

/-- The validation outcome on `dfTwo`. -/
def stTwo : VState :=
  { failures :=
      [{ row := 3, column := "customer_id", issues := ["Empty (should be non-empty)"] },
       { row := 3, column := "first_name", issues := ["'A' (too short, min 2 chars)"] },
       { row := 3, column := "email", issues := ["'bad' (invalid email format)"] },
       { row := 3, column := "phone",
         issues := ["'123' (should have 10 digits, found 3)"] },
       { row := 3, column := "date_of_birth",
         issues := ["'invalid_date' (invalid date value)"] },
       { row := 3, column := "address", issues := ["'short' (too short, min 10 chars)"] },
       { row := 3, column := "income", issues := ["-5.0 (should be non-negative)"] },
       { row := 3, column := "account_status",
         issues := ["'Frozen' (invalid value, should be: active, inactive, suspended)"] }],
    passedRows := {0} }

/-- Witness for C1: the partition invariant evaluated on `dfTwo`
(1 passing row, 1 distinct failing row, 2 rows in total). -/
theorem passSet_iff_and_partition_witness :
    stTwo.passedRows.card + ((stTwo.failures.map (fun f => f.row)).toFinset).card
      = dfTwo.nrows :=
  (passSet_iff_and_partition dfTwo stTwo (by decide) (by decide)).2

/-- Claim C2: on identifier column `[5, 5, 5]`, `validate_customer_id`
records exactly two failures, both carrying the duplicate-ID issue, on
the second and third record positions (reported rows 3 and 4; recall
`row = idx + 2`); the first occurrence is not flagged. -/
theorem duplicate_ids_five_five_five :
    validateCidAux 0 [Value.int 5, Value.int 5, Value.int 5] []
        { failures := [], passedRows := Finset.range 3 } =
      { failures :=
          [{ row := 3, column := "customer_id", issues := ["5 (duplicate ID)"] },
           { row := 4, column := "customer_id", issues := ["5 (duplicate ID)"] }],
        passedRows := {0} } := by
  decide

/-- Counterexample to C3: a malformed (non-integer) identifier value is
added to the seen state, so the repeated value `"abc"` on the second
record IS flagged as a duplicate, contrary to the claim. -/
theorem malformed_id_participates_in_uniqueness :
    ("abc (duplicate ID)") ∈ cidIssues (Value.str "abc") [Value.str "abc"]
    ∧ validateCidAux 0 [Value.str "abc", Value.str "abc"] []
        { failures := [], passedRows := Finset.range 2 } =
      { failures :=
          [{ row := 2, column := "customer_id", issues := ["abc (should be integer)"] },
           { row := 3, column := "customer_id",
             issues := ["abc (should be integer)", "abc (duplicate ID)"] }],
        passedRows := ∅ } := by
  constructor
  · decide
  · decide

/-- The evolution of the `ids_seen` state over a column prefix, i.e. the
`seen` component threaded through `validateCidAux`. -/
def seenAfter : List Value → List Value → List Value
  | [], seen => seen
  | v :: rest, seen => seenAfter rest (cidSeenStep v seen)

lemma mem_cidSeenStep (x v : Value) (seen : List Value) :
    v ∈ cidSeenStep x seen ↔ (v ∈ seen ∨ (v = x ∧ isna x = false)) := by
  unfold cidSeenStep
  by_cases h1 : isna x
  · simp [h1]
  · by_cases h2 : x ∈ seen
    · simp only [h1, if_neg, Bool.not_eq_true, if_pos h2]
      constructor
      · exact fun h => Or.inl h
      · rintro (h | ⟨rfl, -⟩)
        · exact h
        · exact h2
    · simp only [h1, if_neg, Bool.not_eq_true, if_neg h2, List.mem_cons]
      constructor
      · rintro (rfl | h)
        · exact Or.inr ⟨rfl, trivial⟩
        · exact Or.inl h
      · rintro (h | ⟨rfl, -⟩)
        · exact Or.inr h
        · exact Or.inl rfl

lemma mem_seenAfter (vs : List Value) :
    ∀ (seen : List Value) (v : Value),
      v ∈ seenAfter vs seen ↔ (v ∈ seen ∨ (v ∈ vs ∧ isna v = false)) := by
  induction vs with
  | nil => intro seen v; simp [seenAfter]
  | cons x rest ih =>
      intro seen v
      rw [seenAfter, ih, mem_cidSeenStep, List.mem_cons]
      constructor
      · rintro ((h | ⟨rfl, hx⟩) | ⟨h, hv⟩)
        · exact Or.inl h
        · exact Or.inr ⟨Or.inl rfl, hx⟩
        · exact Or.inr ⟨Or.inr h, hv⟩
      · rintro (h | ⟨(rfl | h), hv⟩)
        · exact Or.inl (Or.inl h)
        · exact Or.inl (Or.inr ⟨rfl, hv⟩)
        · exact Or.inr ⟨h, hv⟩

/-- Amended C3: the `ids_seen` state holds exactly the present
(non-missing) values of the processed prefix — malformed but present
values do participate in uniqueness checking — while a record with a
missing identifier is never flagged as a duplicate (its sole issue is the
emptiness issue) and a present value already seen is always flagged. -/
theorem seen_state_characterization :
    (∀ (vs : List Value) (v : Value),
      v ∈ seenAfter vs [] ↔ (v ∈ vs ∧ isna v = false))
    ∧ (∀ (v : Value) (seen : List Value), isna v = true → cidIssues v seen = [emptyIssue])
    ∧ (∀ (v : Value) (seen : List Value), isna v = false → v ∈ seen →
        ∃ pre, cidIssues v seen = pre ++ [pyStr v ++ " (duplicate ID)"]) := by
  refine ⟨?_, ?_, ?_⟩
  · intro vs v
    rw [mem_seenAfter]
    simp
  · intro v seen h
    simp [cidIssues, h]
  · intro v seen h1 h2
    refine ⟨(if isna v then [emptyIssue]
      else match toInt? v with
        | some n => if n ≤ 0 then [pyStr v ++ " (should be positive)"] else []
        | none => [pyStr v ++ " (should be integer)"]), ?_⟩
    simp [cidIssues, h1, h2]

/-- Witness for the amended C3: the missing value is not flagged and the
malformed repeated value is. -/
theorem seen_state_characterization_witness :
    cidIssues Value.na [Value.na] = [emptyIssue]
    ∧ (Value.str "abc" ∈ seenAfter [Value.str "abc", Value.na] [] ↔
        (Value.str "abc" ∈ [Value.str "abc", Value.na]
          ∧ isna (Value.str "abc") = false)) :=
  ⟨seen_state_characterization.2.1 Value.na [Value.na] rfl,
   seen_state_characterization.1 [Value.str "abc", Value.na] (Value.str "abc")⟩

/-- Two failures never collide when their column sets are disjoint. -/
lemma pairwise_distinct_append {A B : List Failure} {csA csB : List String}
    (hA : A.Pairwise (fun f g => f.row ≠ g.row ∨ f.column ≠ g.column))
    (hB : B.Pairwise (fun f g => f.row ≠ g.row ∨ f.column ≠ g.column))
    (hcA : ∀ f ∈ A, f.column ∈ csA) (hcB : ∀ f ∈ B, f.column ∈ csB)
    (hdis : ∀ c ∈ csA, c ∉ csB) :
    (A ++ B).Pairwise (fun f g => f.row ≠ g.row ∨ f.column ≠ g.column) := by
  rw [List.pairwise_append]
  refine ⟨hA, hB, ?_⟩
  intro a ha b hb
  right
  intro he
  exact hdis a.column (hcA a ha) (he ▸ hcB b hb)

lemma cols_append {A B : List Failure} {csA csB : List String}
    (hcA : ∀ f ∈ A, f.column ∈ csA) (hcB : ∀ f ∈ B, f.column ∈ csB) :
    ∀ f ∈ A ++ B, f.column ∈ csA ++ csB := by
  intro f hf
  rcases List.mem_append.1 hf with h | h
  · exact List.mem_append.2 (Or.inl (hcA f h))
  · exact List.mem_append.2 (Or.inr (hcB f h))

lemma failuresFrom_pairwise_distinct (column : String) (rule : Value → List String)
    (vs : List Value) (idx : Nat) :
    (failuresFrom column rule idx vs).Pairwise
      (fun f g => f.row ≠ g.row ∨ f.column ≠ g.column) :=
  (failuresFrom_rows_sorted column rule vs idx).imp (fun h => Or.inl (Nat.ne_of_lt h))

lemma cidFailures_pairwise_distinct (vs : List Value) (idx : Nat) (seen : List Value) :
    (cidFailures idx vs seen).Pairwise
      (fun f g => f.row ≠ g.row ∨ f.column ≠ g.column) :=
  (cidFailures_rows_sorted vs idx seen).imp (fun h => Or.inl (Nat.ne_of_lt h))

/-- Every failure of a run carries a non-empty issue list. -/
lemma allFailures_issues_nonempty {cid fn ln em ph dob addr inc stat cd : List Value} :
    ∀ f ∈ allFailures cid fn ln em ph dob addr inc stat cd, f.issues ≠ [] := by
  intro f hf
  simp only [allFailures, List.mem_append] at hf
  rcases hf with ((((((((hf | hf) | hf) | hf) | hf) | hf) | hf) | hf) | hf) | hf
  · exact (cidFailures_spec cid 0 [] f hf).2.1
  · exact (failuresFrom_spec "first_name" nameIssues fn 0 f hf).2.1
  · exact (failuresFrom_spec "last_name" nameIssues ln 0 f hf).2.1
  · exact (failuresFrom_spec "email" emailIssues em 0 f hf).2.1
  · exact (failuresFrom_spec "phone" phoneIssues ph 0 f hf).2.1
  · exact (failuresFrom_spec "date_of_birth" dateIssues dob 0 f hf).2.1
  · exact (failuresFrom_spec "address" addressIssues addr 0 f hf).2.1
  · exact (failuresFrom_spec "income" incomeIssues inc 0 f hf).2.1
  · exact (failuresFrom_spec "account_status" statusIssues stat 0 f hf).2.1
  · exact (failuresFrom_spec "created_date" dateIssues cd 0 f hf).2.1

/-- The full failure list never repeats a (row, column) pair. -/
lemma allFailures_pairwise_distinct {cid fn ln em ph dob addr inc stat cd : List Value} :
    (allFailures cid fn ln em ph dob addr inc stat cd).Pairwise
      (fun f g => f.row ≠ g.row ∨ f.column ≠ g.column) := by
  have s1 := cidFailures_pairwise_distinct cid 0 []
  have s2 := failuresFrom_pairwise_distinct "first_name" nameIssues fn 0
  have s3 := failuresFrom_pairwise_distinct "last_name" nameIssues ln 0
  have s4 := failuresFrom_pairwise_distinct "email" emailIssues em 0
  have s5 := failuresFrom_pairwise_distinct "phone" phoneIssues ph 0
  have s6 := failuresFrom_pairwise_distinct "date_of_birth" dateIssues dob 0
  have s7 := failuresFrom_pairwise_distinct "address" addressIssues addr 0
  have s8 := failuresFrom_pairwise_distinct "income" incomeIssues inc 0
  have s9 := failuresFrom_pairwise_distinct "account_status" statusIssues stat 0
  have s10 := failuresFrom_pairwise_distinct "created_date" dateIssues cd 0
  have c1 : ∀ f ∈ cidFailures 0 cid [], f.column ∈ ["customer_id"] :=
    fun f hf => by simp [(cidFailures_spec cid 0 [] f hf).1]
  have c2 : ∀ f ∈ failuresFrom "first_name" nameIssues 0 fn, f.column ∈ ["first_name"] :=
    fun f hf => by simp [(failuresFrom_spec "first_name" nameIssues fn 0 f hf).1]
  have c3 : ∀ f ∈ failuresFrom "last_name" nameIssues 0 ln, f.column ∈ ["last_name"] :=
    fun f hf => by simp [(failuresFrom_spec "last_name" nameIssues ln 0 f hf).1]
  have c4 : ∀ f ∈ failuresFrom "email" emailIssues 0 em, f.column ∈ ["email"] :=
    fun f hf => by simp [(failuresFrom_spec "email" emailIssues em 0 f hf).1]
  have c5 : ∀ f ∈ failuresFrom "phone" phoneIssues 0 ph, f.column ∈ ["phone"] :=
    fun f hf => by simp [(failuresFrom_spec "phone" phoneIssues ph 0 f hf).1]
  have c6 : ∀ f ∈ failuresFrom "date_of_birth" dateIssues 0 dob,
      f.column ∈ ["date_of_birth"] :=
    fun f hf => by simp [(failuresFrom_spec "date_of_birth" dateIssues dob 0 f hf).1]
  have c7 : ∀ f ∈ failuresFrom "address" addressIssues 0 addr, f.column ∈ ["address"] :=
    fun f hf => by simp [(failuresFrom_spec "address" addressIssues addr 0 f hf).1]
  have c8 : ∀ f ∈ failuresFrom "income" incomeIssues 0 inc, f.column ∈ ["income"] :=
    fun f hf => by simp [(failuresFrom_spec "income" incomeIssues inc 0 f hf).1]
  have c9 : ∀ f ∈ failuresFrom "account_status" statusIssues 0 stat,
      f.column ∈ ["account_status"] :=
    fun f hf => by simp [(failuresFrom_spec "account_status" statusIssues stat 0 f hf).1]
  have c10 : ∀ f ∈ failuresFrom "created_date" dateIssues 0 cd,
      f.column ∈ ["created_date"] :=
    fun f hf => by simp [(failuresFrom_spec "created_date" dateIssues cd 0 f hf).1]
  have p2 := pairwise_distinct_append s1 s2 c1 c2 (by decide)
  have q2 := cols_append c1 c2
  have p3 := pairwise_distinct_append p2 s3 q2 c3 (by decide)
  have q3 := cols_append q2 c3
  have p4 := pairwise_distinct_append p3 s4 q3 c4 (by decide)
  have q4 := cols_append q3 c4
  have p5 := pairwise_distinct_append p4 s5 q4 c5 (by decide)
  have q5 := cols_append q4 c5
  have p6 := pairwise_distinct_append p5 s6 q5 c6 (by decide)
  have q6 := cols_append q5 c6
  have p7 := pairwise_distinct_append p6 s7 q6 c7 (by decide)
  have q7 := cols_append q6 c7
  have p8 := pairwise_distinct_append p7 s8 q7 c8 (by decide)
  have q8 := cols_append q7 c8
  have p9 := pairwise_distinct_append p8 s9 q8 c9 (by decide)
  have q9 := cols_append q8 c9
  have p10 := pairwise_distinct_append p9 s10 q9 c10 (by decide)
  exact p10

/-- Claim C4: a complete run creates at most one failure per (record,
field) pair — the failure list never repeats a (row, column) pair — and
every failure it does create carries a non-empty issue list. -/
theorem one_failure_per_record_field (df : DataFrame) (st : VState)
    (hok : runAllValidations df = Except.ok st) :
    st.failures.Pairwise (fun f g => f.row ≠ g.row ∨ f.column ≠ g.column)
    ∧ ∀ f ∈ st.failures, f.issues ≠ [] := by
  obtain ⟨cid, fn, ln, em, ph, dob, addr, inc, stat, cd, h1, h2, h3, h4, h5, h6, h7, h8,
    h9, h10, hst⟩ := runAll_ok_shape df st hok
  subst hst
  exact ⟨allFailures_pairwise_distinct, allFailures_issues_nonempty⟩

/-- Witness for C4 on the concrete dataset `dfTwo`. -/
theorem one_failure_per_record_field_witness :
    stTwo.failures.Pairwise (fun f g => f.row ≠ g.row ∨ f.column ≠ g.column) :=
  (one_failure_per_record_field dfTwo stTwo (by decide)).1

/-- Claim C7: `"1990/01/15"` passes `validate_date` — it fails the first
format `%Y-%m-%d` and matches the second, `%Y/%m/%d` — while the literal
`"invalid_date"` yields exactly the invalid-date-sentinel issue and never
the generic unrecognized-format issue. -/
theorem date_rule_examples :
    dateIssues (Value.str "1990/01/15") = []
    ∧ parsesYMD '-' "1990/01/15" = false
    ∧ parsesYMD '/' "1990/01/15" = true
    ∧ dateIssues (Value.str "invalid_date") = ["'invalid_date' (invalid date value)"] := by
  refine ⟨?_, ?_, ?_, ?_⟩ <;> decide

/-- Claim C9: when a required column (e.g. the identifier) is entirely
absent from the schema, the engine signals the structural error naming
the missing field and, the result being an `Except.error`, no result
payload is produced; conversely a successful run certifies that every
required column was addressable. -/
theorem missing_column_schema_error (df : DataFrame) :
    (getCol? df "customer_id" = none →
      runAllValidations df = Except.error (SchemaError.missingField "customer_id"))
    ∧ (∀ st, runAllValidations df = Except.ok st →
        ∀ c ∈ ["customer_id", "first_name", "last_name", "email", "phone",
               "date_of_birth", "address", "income", "account_status", "created_date"],
          (getCol? df c).isSome) := by
  constructor
  · intro h
    simp [runAllValidations, cidStep, reqCol, h, bind, Except.bind]
  · intro st hok c hc
    obtain ⟨cid, fn, ln, em, ph, dob, addr, inc, stat, cd, h1, h2, h3, h4, h5, h6, h7,
      h8, h9, h10, -⟩ := runAll_ok_shape df st hok
    fin_cases hc <;> simp [h1, h2, h3, h4, h5, h6, h7, h8, h9, h10]

/-- Witness for C9: a dataset with no identifier column is rejected with
the structural error naming that column. -/
theorem missing_column_schema_error_witness :
    runAllValidations { nrows := 1, cols := [("first_name", [Value.str "x"])] }
      = Except.error (SchemaError.missingField "customer_id") :=
  (missing_column_schema_error _).1 (by decide)

/-- Replacing one column leaves every other column access unchanged. -/
lemma getCol?_setCol_other (df : DataFrame) (c c2 : String) (vs : List Value)
    (h : c2 ≠ c) : getCol? (setCol df c vs) c2 = getCol? df c2 := by
  obtain ⟨n, cols⟩ := df
  simp only [getCol?, setCol]
  induction cols with
  | nil => rfl
  | cons p rest ih =>
      simp only [List.map_cons]
      by_cases hp : p.1 = c
      · rw [if_pos hp]
        rw [List.find?_cons_of_neg _ (by simp [Ne.symm h]),
          List.find?_cons_of_neg _ (by simp [hp, Ne.symm h])]
        exact ih
      · rw [if_neg hp]
        by_cases ht : p.1 = c2
        · rw [List.find?_cons_of_pos _ (by simp [ht]), List.find?_cons_of_pos _ (by simp [ht])]
        · rw [List.find?_cons_of_neg _ (by simp [ht]), List.find?_cons_of_neg _ (by simp [ht])]
          exact ih

/-- Replacing a present column makes its access return the new list. -/
lemma getCol?_setCol_same (df : DataFrame) (c : String) (vs vs0 : List Value)
    (h : getCol? df c = some vs0) : getCol? (setCol df c vs) c = some vs := by
  obtain ⟨n, cols⟩ := df
  simp only [getCol?, setCol] at h ⊢
  induction cols with
  | nil => simp at h
  | cons p rest ih =>
      simp only [List.map_cons]
      by_cases hp : p.1 = c
      · rw [if_pos hp]
        rw [List.find?_cons_of_pos _ (by simp)]
        rfl
      · rw [if_neg hp]
        rw [List.find?_cons_of_neg _ (by simp [hp])]
        rw [List.find?_cons_of_neg _ (by simp [hp])] at h
        exact ih h

/-- A failure block for the income column vanishes under the
other-columns filter. -/
lemma filter_nonincome_income_block (inc : List Value) :
    (failuresFrom "income" incomeIssues 0 inc).filter
      (fun f => f.column != "income") = [] := by
  rw [List.filter_eq_nil_iff]
  intro f hf
  have hc := (failuresFrom_spec "income" incomeIssues inc 0 f hf).1
  simp [hc]

/-- Claim C8: `validate_income` is total — a present value that `float`
cannot coerce is recorded as the value-level numeric issue on the income
field — and the failures recorded for every other field are unaffected by
the contents of the income column, so validation of a record continues
against all remaining rules. -/
theorem income_rule_total_and_isolated :
    (∀ v : Value, isna v = false → toFloat? v = none →
      incomeIssues v = ["'" ++ pyStr v ++ "' (should be numeric)"])
    ∧ (∀ (dfA dfB : DataFrame) (stA stB : VState),
        (∀ c, c ≠ "income" → getCol? dfA c = getCol? dfB c) →
        runAllValidations dfA = Except.ok stA →
        runAllValidations dfB = Except.ok stB →
        stA.failures.filter (fun f => f.column != "income")
          = stB.failures.filter (fun f => f.column != "income")) := by
  constructor
  · intro v h1 h2
    simp [incomeIssues, h1, h2]
  · intro dfA dfB stA stB hc hokA hokB
    obtain ⟨cidA, fnA, lnA, emA, phA, dobA, addrA, incA, statA, cdA, a1, a2, a3, a4, a5,
      a6, a7, a8, a9, a10, hstA⟩ := runAll_ok_shape dfA stA hokA
    obtain ⟨cidB, fnB, lnB, emB, phB, dobB, addrB, incB, statB, cdB, b1, b2, b3, b4, b5,
      b6, b7, b8, b9, b10, hstB⟩ := runAll_ok_shape dfB stB hokB
    subst hstA
    subst hstB
    have e1 : cidA = cidB := by
      have h := hc "customer_id" (by decide)
      rw [a1, b1] at h
      exact Option.some.injEq _ _ ▸ h
    have e2 : fnA = fnB := by
      have h := hc "first_name" (by decide)
      rw [a2, b2] at h
      exact Option.some.injEq _ _ ▸ h
    have e3 : lnA = lnB := by
      have h := hc "last_name" (by decide)
      rw [a3, b3] at h
      exact Option.some.injEq _ _ ▸ h
    have e4 : emA = emB := by
      have h := hc "email" (by decide)
      rw [a4, b4] at h
      exact Option.some.injEq _ _ ▸ h
    have e5 : phA = phB := by
      have h := hc "phone" (by decide)
      rw [a5, b5] at h
      exact Option.some.injEq _ _ ▸ h
    have e6 : dobA = dobB := by
      have h := hc "date_of_birth" (by decide)
      rw [a6, b6] at h
      exact Option.some.injEq _ _ ▸ h
    have e7 : addrA = addrB := by
      have h := hc "address" (by decide)
      rw [a7, b7] at h
      exact Option.some.injEq _ _ ▸ h
    have e9 : statA = statB := by
      have h := hc "account_status" (by decide)
      rw [a9, b9] at h
      exact Option.some.injEq _ _ ▸ h
    have e10 : cdA = cdB := by
      have h := hc "created_date" (by decide)
      rw [a10, b10] at h
      exact Option.some.injEq _ _ ▸ h
    subst e1 e2 e3 e4 e5 e6 e7 e9 e10
    simp only [allFailures, List.filter_append, filter_nonincome_income_block,
      List.append_nil, List.nil_append]

/-- `dfTwo` with its income column replaced: row 1 now holds a
non-numeric string. -/
def dfTwoAbc : DataFrame := setCol dfTwo "income" [Value.int 500, Value.str "abc"]

/-- The validation outcome on `dfTwoAbc`. -/
def stTwoAbc : VState :=
  { failures :=
      [{ row := 3, column := "customer_id", issues := ["Empty (should be non-empty)"] },
       { row := 3, column := "first_name", issues := ["'A' (too short, min 2 chars)"] },
       { row := 3, column := "email", issues := ["'bad' (invalid email format)"] },
       { row := 3, column := "phone",
         issues := ["'123' (should have 10 digits, found 3)"] },
       { row := 3, column := "date_of_birth",
         issues := ["'invalid_date' (invalid date value)"] },
       { row := 3, column := "address", issues := ["'short' (too short, min 10 chars)"] },
       { row := 3, column := "income", issues := ["'abc' (should be numeric)"] },
       { row := 3, column := "account_status",
         issues := ["'Frozen' (invalid value, should be: active, inactive, suspended)"] }],
    passedRows := {0} }

/-- Witness for C8: the numeric issue on `"abc"`, and two concrete
two-row datasets differing only in income (one numeric, one not) with
identical non-income failure lists. -/
theorem income_rule_total_and_isolated_witness :
    incomeIssues (Value.str "abc") = ["'abc' (should be numeric)"]
    ∧ stTwo.failures.filter (fun f => f.column != "income")
        = stTwoAbc.failures.filter (fun f => f.column != "income") :=
  ⟨income_rule_total_and_isolated.1 (Value.str "abc") rfl rfl,
   income_rule_total_and_isolated.2 dfTwo dfTwoAbc stTwo stTwoAbc
     (fun c hc => (getCol?_setCol_other dfTwo "income" c _ hc).symm)
     (by decide) (by decide)⟩

/-! ## The severity classifier: algebraic description -/

/-- `duplicates = total - unique` is never negative: distinct non-null
values are no more numerous than the rows. -/
lemma dupCount_nonneg (ids : List Value) : 0 ≤ dupCount ids := by
  unfold dupCount uniqueCount
  have h1 : ((ids.filter (fun v => !(isna v))).dedup).length
      ≤ (ids.filter (fun v => !(isna v))).length :=
    List.Sublist.length_le (List.dedup_sublist _)
  have h2 : (ids.filter (fun v => !(isna v))).length ≤ ids.length :=
    List.Sublist.length_le (List.filter_sublist _)
  omega

/-- Missing-value counts routed to the critical tier (identifier column). -/
def critMissing (l : List (String × Nat)) : Int :=
  (l.map (fun p => if p.1 = "customer_id" then (p.2 : Int) else 0)).sum

/-- Missing-value counts routed to the medium tier (all other columns). -/
def medMissing (l : List (String × Nat)) : Int :=
  (l.map (fun p => if p.1 = "customer_id" then 0 else (p.2 : Int))).sum

lemma missingStep_eval (c0 m0 : Int) (p : String × Nat) :
    missingStep (c0, m0) p =
      (c0 + (if p.1 = "customer_id" then (p.2 : Int) else 0),
       m0 + (if p.1 = "customer_id" then 0 else (p.2 : Int))) := by
  unfold missingStep
  by_cases h0 : p.2 > 0
  · by_cases h2 : p.1 = "customer_id"
    · have h3 : "customer_id" ∉ mediumMissingCols := by decide
      simp [h0, h2, h3]
    · by_cases h1 : p.1 ∈ mediumMissingCols
      · simp [h0, h1, h2]
      · simp [h0, h1, h2]
  · have hz : p.2 = 0 := by omega
    simp [h0, hz]

lemma missingStep_foldl :
    ∀ (l : List (String × Nat)) (c0 m0 : Int),
      l.foldl missingStep (c0, m0) = (c0 + critMissing l, m0 + medMissing l)
  | [], c0, m0 => by simp [critMissing, medMissing]
  | p :: rest, c0, m0 => by
      rw [List.foldl_cons, missingStep_eval, missingStep_foldl rest]
      unfold critMissing medMissing
      simp only [List.map_cons, List.sum_cons, Prod.mk.injEq]
      constructor <;> ring

/-- The severity tally, with every vacuous emptiness guard of the source
collapsed (adding zero when a list is empty equals skipping the add). -/
lemma severityOf_eq (comp : List (String × Nat)) (a b inv cats : List String) (dup : Int)
    (hdup : 0 ≤ dup) :
    severityOf comp a b dup inv cats =
      (dup + critMissing comp,
       (a.length : Int) + (b.length : Int) + (inv.length : Int),
       (cats.length : Int) + medMissing comp) := by
  simp only [severityOf]
  rw [missingStep_foldl]
  have g1 : (if a ≠ [] ∨ b ≠ [] then (a.length : Int) + (b.length : Int) else 0)
      = (a.length : Int) + (b.length : Int) := by
    split_ifs with h
    · rfl
    · push_neg at h
      simp [h.1, h.2]
  have g2 : (if inv ≠ [] then (inv.length : Int) else 0) = (inv.length : Int) := by
    split_ifs with h
    · rfl
    · simp only [not_not] at h
      simp [h]
  have g3 : (if cats ≠ [] then (cats.length : Int) else 0) = (cats.length : Int) := by
    split_ifs with h
    · rfl
    · simp only [not_not] at h
      simp [h]
  have g4 : (if dup > 0 then dup else 0) = dup := by
    split_ifs with h
    · rfl
    · omega
  rw [g1, g2, g3, g4]

/-- Shape of a successful severity run: the six addressed columns are
present and the tally is the algebraic formula. -/
lemma qualitySeverity_ok_shape (df : DataFrame) (cy : Int) (t : Int × Int × Int)
    (hok : qualitySeverity df cy = Except.ok t) :
    ∃ ph dob created ids inc stat,
      getCol? df "phone" = some ph ∧
      getCol? df "date_of_birth" = some dob ∧
      getCol? df "created_date" = some created ∧
      getCol? df "customer_id" = some ids ∧
      getCol? df "income" = some inc ∧
      getCol? df "account_status" = some stat ∧
      t = (dupCount ids + critMissing (completenessList df),
           ((dobFmtIssues dob).length : Int) + ((createdFmtIssues created).length : Int)
             + ((invalidValues dob created inc cy).length : Int),
           ((catIssues stat).length : Int) + medMissing (completenessList df)) := by
  cases h5 : getCol? df "phone" with
  | none => simp [qualitySeverity, reqCol, h5, bind, Except.bind] at hok
  | some ph =>
  cases h6 : getCol? df "date_of_birth" with
  | none => simp [qualitySeverity, reqCol, h5, h6, bind, Except.bind] at hok
  | some dob =>
  cases h10 : getCol? df "created_date" with
  | none => simp [qualitySeverity, reqCol, h5, h6, h10, bind, Except.bind] at hok
  | some created =>
  cases h1 : getCol? df "customer_id" with
  | none => simp [qualitySeverity, reqCol, h5, h6, h10, h1, bind, Except.bind] at hok
  | some ids =>
  cases h8 : getCol? df "income" with
  | none => simp [qualitySeverity, reqCol, h5, h6, h10, h1, h8, bind, Except.bind] at hok
  | some inc =>
  cases h9 : getCol? df "account_status" with
  | none =>
      simp [qualitySeverity, reqCol, h5, h6, h10, h1, h8, h9, bind, Except.bind] at hok
  | some stat =>
      simp only [qualitySeverity, reqCol, h5, h6, h10, h1, h8, h9, bind,
        Except.bind] at hok
      rw [severityOf_eq _ _ _ _ _ _ (dupCount_nonneg ids)] at hok
      simp only [Except.ok.injEq] at hok
      exact ⟨ph, dob, created, ids, inc, stat, rfl, rfl, rfl, rfl, rfl, rfl, hok.symm⟩

lemma critMissing_nonneg (l : List (String × Nat)) : 0 ≤ critMissing l := by
  apply List.sum_nonneg
  intro x hx
  simp only [List.mem_map] at hx
  obtain ⟨p, -, rfl⟩ := hx
  split_ifs
  · exact Int.natCast_nonneg _
  · exact le_refl 0

lemma medMissing_nonneg (l : List (String × Nat)) : 0 ≤ medMissing l := by
  apply List.sum_nonneg
  intro x hx
  simp only [List.mem_map] at hx
  obtain ⟨p, -, rfl⟩ := hx
  split_ifs
  · exact le_refl 0
  · exact Int.natCast_nonneg _

lemma critMissing_add_medMissing :
    ∀ l : List (String × Nat),
      critMissing l + medMissing l = (l.map (fun p => (p.2 : Int))).sum
  | [] => by simp [critMissing, medMissing]
  | p :: rest => by
      have ih := critMissing_add_medMissing rest
      unfold critMissing medMissing at ih ⊢
      simp only [List.map_cons, List.sum_cons]
      split_ifs <;> omega

/-- Claim C5: on any dataset the severity run accepts, the three tally
counters are non-negative, and defects partition across the tiers — the
grand total equals duplicates plus all missing values plus the two
date-format issue counts plus invalid-value issues plus categorical
issues, each counted in exactly one tier. -/
theorem severity_tally_nonneg_and_partition (df : DataFrame) (cy : Int) (c h m : Int)
    {ids dob created inc stat : List Value}
    (h1 : getCol? df "customer_id" = some ids)
    (h6 : getCol? df "date_of_birth" = some dob)
    (h10 : getCol? df "created_date" = some created)
    (h8 : getCol? df "income" = some inc)
    (h9 : getCol? df "account_status" = some stat)
    (hok : qualitySeverity df cy = Except.ok (c, h, m)) :
    0 ≤ c ∧ 0 ≤ h ∧ 0 ≤ m
    ∧ c + h + m = dupCount ids
        + ((completenessList df).map (fun p => (p.2 : Int))).sum
        + (((dobFmtIssues dob).length : Int) + ((createdFmtIssues created).length : Int))
        + ((invalidValues dob created inc cy).length : Int)
        + ((catIssues stat).length : Int) := by
  obtain ⟨ph2, dob2, created2, ids2, inc2, stat2, k5, k6, k10, k1, k8, k9, ht⟩ :=
    qualitySeverity_ok_shape df cy (c, h, m) hok
  rw [h6] at k6
  rw [h10] at k10
  rw [h1] at k1
  rw [h8] at k8
  rw [h9] at k9
  obtain rfl : dob = dob2 := by simpa using k6
  obtain rfl : created = created2 := by simpa using k10
  obtain rfl : ids = ids2 := by simpa using k1
  obtain rfl : inc = inc2 := by simpa using k8
  obtain rfl : stat = stat2 := by simpa using k9
  simp only [Prod.mk.injEq] at ht
  obtain ⟨hc, hh, hm⟩ := ht
  subst hc
  subst hh
  subst hm
  refine ⟨?_, ?_, ?_, ?_⟩
  · have := dupCount_nonneg ids
    have := critMissing_nonneg (completenessList df)
    omega
  · have a1 := Int.natCast_nonneg (dobFmtIssues dob).length
    have a2 := Int.natCast_nonneg (createdFmtIssues created).length
    have a3 := Int.natCast_nonneg (invalidValues dob created inc cy).length
    omega
  · have a1 := Int.natCast_nonneg (catIssues stat).length
    have := medMissing_nonneg (completenessList df)
    omega
  · have hsum := critMissing_add_medMissing (completenessList df)
    omega

/-- Witness for C5 on the concrete dataset `dfTwo` at reference year
2026 (tally (2, 4, 1); total defects 7). -/
theorem severity_tally_nonneg_and_partition_witness :
    (0:Int) ≤ 2 ∧ (0:Int) ≤ 4 ∧ (0:Int) ≤ 1
    ∧ (2:Int) + 4 + 1 = dupCount [Value.int 1, Value.na]
        + ((completenessList dfTwo).map (fun p => (p.2 : Int))).sum
        + (((dobFmtIssues [Value.str "1990-01-15", Value.str "invalid_date"]).length : Int)
           + ((createdFmtIssues [Value.str "2020-01-01", Value.str "01/15/2020"]).length
              : Int))
        + ((invalidValues [Value.str "1990-01-15", Value.str "invalid_date"]
            [Value.str "2020-01-01", Value.str "01/15/2020"]
            [Value.int 500, Value.int (-5)] 2026).length : Int)
        + ((catIssues [Value.str "active", Value.str "Frozen"]).length : Int) :=
  severity_tally_nonneg_and_partition dfTwo 2026 2 4 1 (by decide) (by decide) (by decide)
    (by decide) (by decide) (by decide)

/-! ## Pointwise column updates: counting lemmas -/

lemma countP_set (p : Value → Bool) :
    ∀ (l : List Value) (r : Nat) (v : Value) (hr : r < l.length),
      (l.set r v).countP p + (if p (l.get ⟨r, hr⟩) then 1 else 0)
        = l.countP p + (if p v then 1 else 0)
  | [], r, v, hr => by simp at hr
  | x :: rest, 0, v, hr => by
      simp only [List.set, List.countP_cons, List.get]
      omega
  | x :: rest, r + 1, v, hr => by
      simp only [List.set, List.countP_cons, List.get]
      have := countP_set p rest r v (by simpa using hr)
      omega

lemma countP_set_same {p : Value → Bool} {l : List Value} {r : Nat} {v : Value}
    (hr : r < l.length) (h : p (l.get ⟨r, hr⟩) = p v) :
    (l.set r v).countP p = l.countP p := by
  have := countP_set p l r v hr
  rw [h] at this
  omega

lemma countP_set_decr {p : Value → Bool} {l : List Value} {r : Nat} {v : Value}
    (hr : r < l.length) (h1 : p (l.get ⟨r, hr⟩) = true) (h2 : p v = false) :
    (l.set r v).countP p + 1 = l.countP p := by
  have := countP_set p l r v hr
  rw [h1, h2] at this
  simpa using this

/-- A row that is non-null and not the empty string separates the
empty-string count strictly below the non-null count. -/
lemma empy_lt_nonNull :
    ∀ (l : List Value) (r : Nat) (hr : r < l.length),
      isna (l.get ⟨r, hr⟩) = false → l.get ⟨r, hr⟩ ≠ Value.str "" →
      l.countP (fun v => v == Value.str "") + 1 ≤ l.countP (fun v => !(isna v))
  | [], r, hr => by simp at hr
  | x :: rest, 0, hr => by
      intro hna hne
      simp only [List.get] at hna hne
      have hmono : rest.countP (fun v => v == Value.str "")
          ≤ rest.countP (fun v => !(isna v)) := by
        apply List.countP_mono_left
        intro v _ hv
        simp only [beq_iff_eq] at hv
        subst hv
        rfl
      have hx1 : ((x == Value.str "") = false) := by simp [hne]
      have hx2 : ((!(isna x)) = true) := by simp [hna]
      simp only [List.countP_cons, hx1, hx2]
      simp only [Bool.false_eq_true, if_false, if_true]
      omega
  | x :: rest, r + 1, hr => by
      intro hna hne
      simp only [List.get] at hna hne
      have ih := empy_lt_nonNull rest r (by simpa using hr) hna hne
      simp only [List.countP_cons]
      have hhead : (if (x == Value.str "") = true then 1 else 0)
          ≤ (if (!(isna x)) = true then 1 else 0) := by
        by_cases hx : (x == Value.str "") = true
        · have hxe : x = Value.str "" := by simpa using hx
          subst hxe
          simp [isna]
        · simp [hx]
      omega

lemma missingOf_set_congr {n : Nat} {l : List Value} {r : Nat} {v : Value}
    (hr : r < l.length)
    (h1 : (!(isna (l.get ⟨r, hr⟩))) = (!(isna v)))
    (h2 : ((l.get ⟨r, hr⟩) == Value.str "") = (v == Value.str "")) :
    missingOf n (l.set r v) = missingOf n l := by
  unfold missingOf
  rw [countP_set_same hr h1, countP_set_same hr h2]

lemma missingOf_set_na {n : Nat} {l : List Value} {r : Nat}
    (hr : r < l.length)
    (hna : isna (l.get ⟨r, hr⟩) = false) (hne : l.get ⟨r, hr⟩ ≠ Value.str "")
    (hlen : l.length ≤ n) :
    missingOf n (l.set r Value.na) = missingOf n l + 1 := by
  have hnn : (l.set r Value.na).countP (fun v => !(isna v)) + 1
      = l.countP (fun v => !(isna v)) :=
    countP_set_decr hr
      (by show (!(isna (l.get ⟨r, hr⟩))) = true; rw [hna]; rfl)
      (by rfl)
  have hee : (l.set r Value.na).countP (fun v => v == Value.str "")
      = l.countP (fun v => v == Value.str "") :=
    countP_set_same hr
      (by show ((l.get ⟨r, hr⟩) == Value.str "") = (Value.na == Value.str "")
          rw [beq_eq_false_iff_ne.mpr hne]
          rfl)
  have hb := empy_lt_nonNull l r hr hna hne
  have hl : l.countP (fun v => !(isna v)) ≤ l.length := List.countP_le_length _
  simp only [missingOf]
  rw [hee]
  omega

/-! ## Pointwise column updates: row-scan lemmas -/

lemma rowScan_set_eq (P : Value → Bool) (msg : Nat → Value → String) :
    ∀ (l : List Value) (i r : Nat) (v : Value) (hr : r < l.length),
      P (l.get ⟨r, hr⟩) = false → P v = false →
      rowScan P msg i (l.set r v) = rowScan P msg i l
  | [], i, r, v, hr => by simp at hr
  | x :: rest, i, 0, v, hr => by
      intro h1 h2
      simp only [List.get] at h1
      simp [rowScan, List.set, h1, h2]
  | x :: rest, i, r + 1, v, hr => by
      intro h1 h2
      simp only [List.get] at h1
      simp only [List.set, rowScan]
      rw [rowScan_set_eq P msg rest (i + 1) r v (by simpa using hr) h1 h2]

lemma rowScan_set_len_incr (P : Value → Bool) (msg : Nat → Value → String) :
    ∀ (l : List Value) (i r : Nat) (v : Value) (hr : r < l.length),
      P (l.get ⟨r, hr⟩) = false → P v = true →
      (rowScan P msg i (l.set r v)).length = (rowScan P msg i l).length + 1
  | [], i, r, v, hr => by simp at hr
  | x :: rest, i, 0, v, hr => by
      intro h1 h2
      simp only [List.get] at h1
      simp [rowScan, List.set, h1, h2]
  | x :: rest, i, r + 1, v, hr => by
      intro h1 h2
      simp only [List.get] at h1
      simp only [List.set, rowScan, List.length_append]
      rw [rowScan_set_len_incr P msg rest (i + 1) r v (by simpa using hr) h1 h2]
      omega

lemma rowScan_mem_set (P : Value → Bool) (msg : Nat → Value → String) :
    ∀ (l : List Value) (i r : Nat) (v : Value), r < l.length → P v = true →
      msg (i + r) v ∈ rowScan P msg i (l.set r v)
  | [], i, r, v, hr => by simp at hr
  | x :: rest, i, 0, v, hr => by
      intro h2
      simp [rowScan, List.set, h2]
  | x :: rest, i, r + 1, v, hr => by
      intro h2
      simp only [List.set, rowScan, List.mem_append]
      right
      have := rowScan_mem_set P msg rest (i + 1) r v (by simpa using hr) h2
      rwa [show i + 1 + r = i + (r + 1) by omega] at this

/-! ## Completeness under a single-column replacement -/

lemma find?_nodup_unique (c : String) (vs : List Value) :
    ∀ (cols : List (String × List Value)), (cols.map Prod.fst).Nodup →
      (cols.find? (fun p => p.1 == c)).map Prod.snd = some vs →
      ∀ p ∈ cols, p.1 = c → p.2 = vs
  | [], _, h => by simp at h
  | q :: rest, hnodup, h => by
      intro p hp hpc
      simp only [List.map_cons, List.nodup_cons] at hnodup
      by_cases hq : q.1 = c
      · rw [List.find?_cons_of_pos _ (by simp [hq])] at h
        have hq2 : q.2 = vs := by simpa using h
        rcases List.mem_cons.1 hp with rfl | hpm
        · exact hq2
        · exfalso
          apply hnodup.1
          rw [hq, ← hpc]
          exact List.mem_map_of_mem Prod.fst hpm
      · rw [List.find?_cons_of_neg _ (by simp [hq])] at h
        rcases List.mem_cons.1 hp with rfl | hpm
        · exact absurd hpc hq
        · exact find?_nodup_unique c vs rest hnodup.2 h p hpm hpc

/-- `getCol?` and column-name uniqueness pin down every entry named `c`. -/
lemma getCol?_nodup_unique {df : DataFrame} {c : String} {vs : List Value}
    (hnodup : (df.cols.map Prod.fst).Nodup)
    (h : getCol? df c = some vs) :
    ∀ p ∈ df.cols, p.1 = c → p.2 = vs :=
  find?_nodup_unique c vs df.cols hnodup h

lemma setCol_nrows (df : DataFrame) (c : String) (vs : List Value) :
    (setCol df c vs).nrows = df.nrows := rfl

/-- If the replacement does not change the column's missing count, the
whole completeness profile is unchanged. -/
lemma completenessList_setCol_congr (df : DataFrame) (c : String) (l2 : List Value)
    (hmiss : ∀ p ∈ df.cols, p.1 = c →
      missingOf df.nrows l2 = missingOf df.nrows p.2) :
    completenessList (setCol df c l2) = completenessList df := by
  unfold completenessList setCol
  simp only [List.map_map]
  apply List.map_congr_left
  intro p hp
  simp only [Function.comp]
  by_cases hpc : p.1 = c
  · rw [if_pos hpc]
    have := hmiss p hp hpc
    simp [this, hpc]
  · rw [if_neg hpc]

/-- Replacing a non-identifier column never changes the critical missing
contribution. -/
lemma critMissing_setCol (df : DataFrame) (c : String) (l2 : List Value)
    (hc : c ≠ "customer_id") :
    critMissing (completenessList (setCol df c l2))
      = critMissing (completenessList df) := by
  unfold critMissing completenessList setCol
  simp only [List.map_map]
  congr 1
  apply List.map_congr_left
  intro p hp
  simp only [Function.comp]
  by_cases hpc : p.1 = c
  · rw [if_pos hpc]
    simp [hc, hpc]
  · rw [if_neg hpc]

lemma medMissing_replace_bump (c : String) (n : Nat) (vs0 l2 : List Value)
    (hc : c ≠ "customer_id") (hmiss : missingOf n l2 = missingOf n vs0 + 1) :
    ∀ cols : List (String × List Value), (cols.map Prod.fst).Nodup →
      (cols.find? (fun p => p.1 == c)).map Prod.snd = some vs0 →
      medMissing ((cols.map (fun p => if p.1 = c then (c, l2) else p)).map
          (fun p => (p.1, missingOf n p.2)))
        = medMissing (cols.map (fun p => (p.1, missingOf n p.2))) + 1
  | [], _, h => by simp at h
  | q :: rest, hnodup, h => by
      simp only [List.map_cons, List.nodup_cons] at hnodup
      by_cases hq : q.1 = c
      · rw [List.find?_cons_of_pos _ (by simp [hq])] at h
        have hq2 : q.2 = vs0 := by simpa using h
        simp only [List.map_cons, if_pos hq]
        have htail : rest.map (fun p => if p.1 = c then (c, l2) else p) = rest := by
          conv_rhs => rw [← List.map_id rest]
          apply List.map_congr_left
          intro p hp
          have hpne : p.1 ≠ c := by
            intro he
            apply hnodup.1
            rw [hq, ← he]
            exact List.mem_map_of_mem Prod.fst hp
          simp [hpne]
        rw [htail]
        unfold medMissing
        simp only [List.map_cons, List.sum_cons]
        rw [if_neg hc, if_neg (show q.1 ≠ "customer_id" by rw [hq]; exact hc)]
        rw [hq2, hmiss]
        push_cast
        ring
      · rw [List.find?_cons_of_neg _ (by simp [hq])] at h
        have ih := medMissing_replace_bump c n vs0 l2 hc hmiss rest hnodup.2 h
        simp only [List.map_cons, if_neg hq]
        unfold medMissing at ih ⊢
        simp only [List.map_cons, List.sum_cons]
        omega

/-- Bumping one non-identifier column's missing count by one bumps the
medium missing contribution by one. -/
lemma medMissing_setCol_bump (df : DataFrame) (c : String) (vs0 l2 : List Value)
    (hc : c ≠ "customer_id")
    (hnodup : (df.cols.map Prod.fst).Nodup)
    (hg : getCol? df c = some vs0)
    (hmiss : missingOf df.nrows l2 = missingOf df.nrows vs0 + 1) :
    medMissing (completenessList (setCol df c l2))
      = medMissing (completenessList df) + 1 := by
  have := medMissing_replace_bump c df.nrows vs0 l2 hc hmiss df.cols hnodup hg
  unfold completenessList setCol
  exact this

/-- The tally formula, directly. -/
lemma qualitySeverity_eq (df : DataFrame) (cy : Int)
    {ph dob created ids inc stat : List Value}
    (h5 : getCol? df "phone" = some ph)
    (h6 : getCol? df "date_of_birth" = some dob)
    (h10 : getCol? df "created_date" = some created)
    (h1 : getCol? df "customer_id" = some ids)
    (h8 : getCol? df "income" = some inc)
    (h9 : getCol? df "account_status" = some stat) :
    qualitySeverity df cy = Except.ok
      (dupCount ids + critMissing (completenessList df),
       ((dobFmtIssues dob).length : Int) + ((createdFmtIssues created).length : Int)
         + ((invalidValues dob created inc cy).length : Int),
       ((catIssues stat).length : Int) + medMissing (completenessList df)) := by
  simp only [qualitySeverity, reqCol, h5, h6, h10, h1, h8, h9, bind, Except.bind]
  rw [severityOf_eq _ _ _ _ _ _ (dupCount_nonneg ids)]

/-- Claim C6: relative to a baseline dataset whose income cell at record
`r` is present, numeric and non-negative, setting that cell to −100 adds
the negative-value issue for that record and raises the high counter by
exactly one, while blanking the cell (missing) adds a missing-value issue
and raises the medium counter by exactly one; the validator-side issues
for the two modified cells are the negative-value and emptiness issues. -/
theorem income_perturbation (df : DataFrame) (cy : Int) (r : Nat) (inc : List Value)
    (c h m : Int)
    (hnodup : (df.cols.map Prod.fst).Nodup)
    (hlen : ∀ p ∈ df.cols, p.2.length = df.nrows)
    (hg : getCol? df "income" = some inc)
    (hr : r < inc.length)
    (hna : isna (inc.get ⟨r, hr⟩) = false)
    (hq : ∃ q, toFloat? (inc.get ⟨r, hr⟩) = some q ∧ 0 ≤ q)
    (hne : inc.get ⟨r, hr⟩ ≠ Value.str "")
    (hok : qualitySeverity df cy = Except.ok (c, h, m)) :
    qualitySeverity (setCol df "income" (inc.set r (Value.int (-100)))) cy
        = Except.ok (c, h + 1, m)
    ∧ negIncomeMsg r (Value.int (-100))
        ∈ rowScan negIncomeP negIncomeMsg 0 (inc.set r (Value.int (-100)))
    ∧ negIncomeMsg r (Value.int (-100))
        = "Row " ++ toString (r + 2) ++ ": income = -100.0 (negative)"
    ∧ incomeIssues (Value.int (-100)) = ["-100.0 (should be non-negative)"]
    ∧ qualitySeverity (setCol df "income" (inc.set r Value.na)) cy
        = Except.ok (c, h, m + 1)
    ∧ incomeIssues Value.na = ["Empty (should be non-empty)"] := by
  obtain ⟨ph, dob, created, ids, inc2, stat, k5, k6, k10, k1, k8, k9, ht⟩ :=
    qualitySeverity_ok_shape df cy (c, h, m) hok
  rw [hg] at k8
  obtain rfl : inc = inc2 := by simpa using k8
  obtain ⟨q, hq1, hq2⟩ := hq
  have hbase : negIncomeP (inc.get ⟨r, hr⟩) = false := by
    simp only [negIncomeP, hq1, hna]
    simp [not_lt.2 hq2]
  have hnew : negIncomeP (Value.int (-100)) = true := by decide
  have hnewna : negIncomeP Value.na = false := by decide
  simp only [Prod.mk.injEq] at ht
  obtain ⟨hc2, hh2, hm2⟩ := ht
  have hnaeq : (!(isna (inc.get ⟨r, hr⟩))) = (!(isna (Value.int (-100)))) := by
    rw [hna]; rfl
  have hnaeq2 : ((inc.get ⟨r, hr⟩) == Value.str "") = ((Value.int (-100)) == Value.str "") := by
    rw [beq_eq_false_iff_ne.mpr hne]; rfl
  refine ⟨?_, ?_, ?_, by decide, ?_, by decide⟩
  · -- negative-income perturbation
    have k5n := (getCol?_setCol_other df "income" "phone"
      (inc.set r (Value.int (-100))) (by decide)).trans k5
    have k6n := (getCol?_setCol_other df "income" "date_of_birth"
      (inc.set r (Value.int (-100))) (by decide)).trans k6
    have k10n := (getCol?_setCol_other df "income" "created_date"
      (inc.set r (Value.int (-100))) (by decide)).trans k10
    have k1n := (getCol?_setCol_other df "income" "customer_id"
      (inc.set r (Value.int (-100))) (by decide)).trans k1
    have k9n := (getCol?_setCol_other df "income" "account_status"
      (inc.set r (Value.int (-100))) (by decide)).trans k9
    have k8n := getCol?_setCol_same df "income" (inc.set r (Value.int (-100))) inc hg
    rw [qualitySeverity_eq _ cy k5n k6n k10n k1n k8n k9n]
    have hcomp : completenessList (setCol df "income" (inc.set r (Value.int (-100))))
        = completenessList df := by
      apply completenessList_setCol_congr
      intro p hp hpc
      rw [getCol?_nodup_unique hnodup hg p hp hpc]
      exact missingOf_set_congr hr hnaeq hnaeq2
    have hinv : ((invalidValues dob created (inc.set r (Value.int (-100))) cy).length : Int)
        = ((invalidValues dob created inc cy).length : Int) + 1 := by
      unfold invalidValues
      simp only [List.length_append]
      have hlen2 := rowScan_set_len_incr negIncomeP negIncomeMsg inc 0 r
        (Value.int (-100)) hr hbase hnew
      push_cast
      omega
    rw [hcomp, hinv]
    simp only [Except.ok.injEq, Prod.mk.injEq]
    refine ⟨hc2.symm, ?_, hm2.symm⟩
    omega
  · have := rowScan_mem_set negIncomeP negIncomeMsg inc 0 r (Value.int (-100)) hr hnew
    simpa using this
  · show "Row " ++ toString (r + 2) ++ ": income = "
        ++ fltStr ((-100 : Int) : Rat) ++ " (negative)"
      = "Row " ++ toString (r + 2) ++ ": income = -100.0 (negative)"
    rw [show fltStr ((-100 : Int) : Rat) = "-100.0" by decide]
    simp only [String.append_assoc]
    congr 1
  · -- missing-income perturbation
    have k5n := (getCol?_setCol_other df "income" "phone"
      (inc.set r Value.na) (by decide)).trans k5
    have k6n := (getCol?_setCol_other df "income" "date_of_birth"
      (inc.set r Value.na) (by decide)).trans k6
    have k10n := (getCol?_setCol_other df "income" "created_date"
      (inc.set r Value.na) (by decide)).trans k10
    have k1n := (getCol?_setCol_other df "income" "customer_id"
      (inc.set r Value.na) (by decide)).trans k1
    have k9n := (getCol?_setCol_other df "income" "account_status"
      (inc.set r Value.na) (by decide)).trans k9
    have k8n := getCol?_setCol_same df "income" (inc.set r Value.na) inc hg
    rw [qualitySeverity_eq _ cy k5n k6n k10n k1n k8n k9n]
    have hlen3 : inc.length ≤ df.nrows := le_of_eq (getCol?_length hlen hg)
    have hcrit : critMissing (completenessList (setCol df "income" (inc.set r Value.na)))
        = critMissing (completenessList df) :=
      critMissing_setCol df "income" (inc.set r Value.na) (by decide)
    have hmed : medMissing (completenessList (setCol df "income" (inc.set r Value.na)))
        = medMissing (completenessList df) + 1 :=
      medMissing_setCol_bump df "income" inc (inc.set r Value.na) (by decide) hnodup hg
        (missingOf_set_na hr hna hne hlen3)
    have hinv : invalidValues dob created (inc.set r Value.na) cy
        = invalidValues dob created inc cy := by
      unfold invalidValues
      rw [rowScan_set_eq negIncomeP negIncomeMsg inc 0 r Value.na hr hbase hnewna]
    rw [hcrit, hmed, hinv]
    simp only [Except.ok.injEq, Prod.mk.injEq]
    refine ⟨hc2.symm, hh2.symm, ?_⟩
    omega

/-- Witness for C6 on `dfTwo` (baseline tally (2, 4, 1)): income −100 at
record 0 gives (2, 5, 1); income missing at record 0 gives (2, 4, 2). -/
theorem income_perturbation_witness :
    qualitySeverity (setCol dfTwo "income"
        ([Value.int 500, Value.int (-5)].set 0 (Value.int (-100)))) 2026
      = Except.ok (2, 5, 1)
    ∧ qualitySeverity (setCol dfTwo "income"
        ([Value.int 500, Value.int (-5)].set 0 Value.na)) 2026
      = Except.ok (2, 4, 2) := by
  have hw := income_perturbation dfTwo 2026 0 [Value.int 500, Value.int (-5)] 2 4 1
    (by decide) (by decide) (by decide) (by decide) (by decide)
    ⟨((500 : Int) : Rat), rfl, by decide⟩ (by decide) (by decide)
  exact ⟨hw.1, hw.2.2.2.2.1⟩

/-- Claim C10: a case variant of a valid account status (lower-cased it
is valid, as written it is not) passes `validate_account_status` without
any failure, yet `analyze_categorical_validity` reports it as an invalid
value, and swapping a valid-as-written status for such a variant raises
the severity tally's medium counter by exactly one: the two components
disagree on case-insensitive membership. -/
theorem status_case_variant_disagreement (s : String)
    (hnl : pyStrip s ∉ validStatuses)
    (hl : pyLower (pyStrip s) ∈ validStatuses) :
    statusIssues (Value.str s) = []
    ∧ catP (Value.str s) = true
    ∧ (∀ (vs : List Value) (r : Nat), r < vs.length →
        catMsg r (Value.str s) ∈ catIssues (vs.set r (Value.str s)))
    ∧ (∀ r : Nat, catMsg r (Value.str s)
        = "Row " ++ toString (r + 2) ++ ": '" ++ s ++ "' (invalid value)")
    ∧ (∀ (df : DataFrame) (cy : Int) (r : Nat) (stat : List Value) (c h m : Int)
        (b : String),
        (df.cols.map Prod.fst).Nodup →
        getCol? df "account_status" = some stat →
        ∀ hr : r < stat.length,
        stat.get ⟨r, hr⟩ = Value.str b →
        pyStrip b ∈ validStatuses →
        qualitySeverity df cy = Except.ok (c, h, m) →
        qualitySeverity (setCol df "account_status" (stat.set r (Value.str s))) cy
          = Except.ok (c, h, m + 1)) := by
  have hsne : pyStrip s ≠ "" := by
    intro he
    rw [he] at hl
    exact absurd hl (by decide)
  have hs0 : s ≠ "" := by
    intro he
    rw [he] at hsne
    exact hsne rfl
  have hcatPs : catP (Value.str s) = true := by
    have hpres : catPresent (Value.str s) = true := by
      simp [catPresent, isna, pyStr, hsne]
    simp [catP, hpres, pyStr, hnl]
  refine ⟨?_, hcatPs, ?_, ?_, ?_⟩
  · simp [statusIssues, isna, pyStr, hsne, hl]
  · intro vs r hr
    have := rowScan_mem_set catP catMsg vs 0 r (Value.str s) hr hcatPs
    simpa using this
  · intro r
    have hpres : catPresent (Value.str s) = true := by
      simp [catPresent, isna, pyStr, hsne]
    simp [catMsg, hpres, pyStr]
  · intro df cy r stat c h m b hnodup hg hr hgb hb hok
    have hbne : pyStrip b ≠ "" := by
      intro he
      rw [he] at hb
      exact absurd hb (by decide)
    have hb0 : b ≠ "" := by
      intro he
      rw [he] at hbne
      exact hbne rfl
    have hcatPb : catP (Value.str b) = false := by
      have hpres : catPresent (Value.str b) = true := by
        simp [catPresent, isna, pyStr, hbne]
      simp [catP, hpres, pyStr, hb]
    obtain ⟨ph, dob, created, ids, inc, stat2, k5, k6, k10, k1, k8, k9, ht⟩ :=
      qualitySeverity_ok_shape df cy (c, h, m) hok
    rw [hg] at k9
    obtain rfl : stat = stat2 := by simpa using k9
    simp only [Prod.mk.injEq] at ht
    obtain ⟨hc2, hh2, hm2⟩ := ht
    have k5n := (getCol?_setCol_other df "account_status" "phone"
      (stat.set r (Value.str s)) (by decide)).trans k5
    have k6n := (getCol?_setCol_other df "account_status" "date_of_birth"
      (stat.set r (Value.str s)) (by decide)).trans k6
    have k10n := (getCol?_setCol_other df "account_status" "created_date"
      (stat.set r (Value.str s)) (by decide)).trans k10
    have k1n := (getCol?_setCol_other df "account_status" "customer_id"
      (stat.set r (Value.str s)) (by decide)).trans k1
    have k8n := (getCol?_setCol_other df "account_status" "income"
      (stat.set r (Value.str s)) (by decide)).trans k8
    have k9n := getCol?_setCol_same df "account_status" (stat.set r (Value.str s)) stat hg
    rw [qualitySeverity_eq _ cy k5n k6n k10n k1n k8n k9n]
    have hcomp : completenessList (setCol df "account_status" (stat.set r (Value.str s)))
        = completenessList df := by
      apply completenessList_setCol_congr
      intro p hp hpc
      rw [getCol?_nodup_unique hnodup hg p hp hpc]
      refine missingOf_set_congr hr ?_ ?_
      · rw [hgb]
        simp [isna]
      · rw [hgb]
        simp [hb0, hs0]
    have hcat : ((catIssues (stat.set r (Value.str s))).length : Int)
        = ((catIssues stat).length : Int) + 1 := by
      unfold catIssues
      have := rowScan_set_len_incr catP catMsg stat 0 r (Value.str s) hr
        (by rw [hgb]; exact hcatPb) hcatPs
      omega
    rw [hcomp, hcat]
    simp only [Except.ok.injEq, Prod.mk.injEq]
    refine ⟨hc2.symm, hh2.symm, ?_⟩
    omega

/-- Witness for C10 at `s = "Active"` over `dfTwo` (baseline tally
(2, 4, 1), record 0 swapped from "active" to "Active" gives (2, 4, 2)). -/
theorem status_case_variant_disagreement_witness :
    statusIssues (Value.str "Active") = []
    ∧ qualitySeverity (setCol dfTwo "account_status"
        ([Value.str "active", Value.str "Frozen"].set 0 (Value.str "Active"))) 2026
      = Except.ok (2, 4, 2) := by
  have hw := status_case_variant_disagreement "Active" (by decide) (by decide)
  exact ⟨hw.1, hw.2.2.2.2 dfTwo 2026 0 [Value.str "active", Value.str "Frozen"] 2 4 1
    "active" (by decide) (by decide) (by decide) (by decide) (by decide) (by decide)⟩

end Pii
